import Mathlib

/-!
Verification of the Ruptela telemetry packet parser (package ruptela_parser).

The definitions below are a shallow embedding of the Go source:
bytes are modelled as `Nat` values (always < 256 in the intended domain, as
produced by hex decoding), byte buffers as `List Nat`, fallible parsing as
`Except`.  The sequential byte cursor of `ParseRuptelaPacketWithOptions`
(the closure `readBytes` over the mutable index `idx`) is modelled by the
state-threading function type `PM` below.  Floating point result fields
(longitude, latitude, altitude, angle, HDOP) are stored as the raw signed
wire integers (the Go code divides them by a constant into a float64, which
is a bijective rescaling not otherwise used by the parser); the timestamp is
stored as the raw 32-bit epoch-seconds value (Go wraps it in
`time.Unix(..).UTC()`).
-/

/-- Mirrors Go `ParseError` (message, offset, data being parsed) and
`ValidationError` (field, value, message); `value` is kept as its rendered
string. -/
inductive RErr : Type where
  | parseError (message : String) (offset : Nat) (dat : List Nat)
  | validationError (field value message : String)
deriving DecidableEq

/-- True for the malformed-encoding (`ParseError`) kind. -/
def RErr.isParse : RErr → Bool
  | .parseError _ _ _ => true
  | .validationError _ _ _ => false

/-- The violated field of a policy (`ValidationError`) error, if any. -/
def RErr.vField : RErr → Option String
  | .parseError _ _ _ => none
  | .validationError f _ _ => some f

/-- Mirrors the Go `Error()` methods used when an inner error is folded into
an outer message via `%v`. -/
def RErr.render : RErr → String
  | .parseError m off _ => "parse error at offset " ++ toString off ++ ": " ++ m
  | .validationError f v m =>
      "validation error for " ++ f ++ " (value: " ++ v ++ "): " ++ m

/-- Mirrors Go `IOElement`. -/
structure IOElement where
  Size : Nat
  ID : Nat
  Value : String
deriving DecidableEq

/-- Mirrors Go `RuptelaRecord` (raw wire integers, see module comment). -/
structure RuptelaRecord where
  Timestamp : Nat
  TimestampExtension : Nat
  RecordExtension : Option Nat
  Priority : Nat
  Longitude : Int
  Latitude : Int
  Altitude : Int
  Angle : Nat
  Satellites : Nat
  Speed : Nat
  HDOP : Nat
  EventIO : Nat
  IOElements : List IOElement
deriving DecidableEq

/-- Mirrors Go `RuptelaPacket`. -/
structure RuptelaPacket where
  Length : Nat
  CRC : Nat
  IMEI : Nat
  CommandID : Nat
  RecordsFlag : Nat
  NumRecords : Nat
  Records : List RuptelaRecord
deriving DecidableEq

/-- Mirrors Go `ParserOptions`. -/
structure ParserOptions where
  ValidateCRC : Bool
  ValidateLength : Bool
  SkipValidation : Bool
  MaxPacketSize : Int
  MaxRecords : Int
  MaxIOElements : Int
  EnableDebug : Bool
deriving DecidableEq

/-- Mirrors Go `DefaultParserOptions`. -/
def DefaultParserOptions : ParserOptions :=
  { ValidateCRC := true, ValidateLength := true, SkipValidation := false,
    MaxPacketSize := 2048, MaxRecords := 100, MaxIOElements := 1000,
    EnableDebug := false }

/-- Mirrors the Go `crc16Table` literal (256 entries, row for row). -/
def crc16Table : List Nat :=
  [0x0000, 0x1189, 0x2312, 0x329B, 0x4624, 0x57AD, 0x6536, 0x74BF,
   0x8C48, 0x9DC1, 0xAF5A, 0xBED3, 0xCA6C, 0xDBE5, 0xE97E, 0xF8F7,
   0x1081, 0x0108, 0x3393, 0x221A, 0x56A5, 0x472C, 0x75B7, 0x643E,
   0x9CC9, 0x8D40, 0xBFDB, 0xAE52, 0xDAED, 0xCB64, 0xF9FF, 0xE876,
   0x2102, 0x308B, 0x0210, 0x1399, 0x6726, 0x76AF, 0x4434, 0x55BD,
   0xAD4A, 0xBCC3, 0x8E58, 0x9FD1, 0xEB6E, 0xFAE7, 0xC87C, 0xD9F5,
   0x3183, 0x200A, 0x1291, 0x0318, 0x77A7, 0x662E, 0x54B5, 0x453C,
   0xBDCB, 0xAC42, 0x9ED9, 0x8F50, 0xFBEF, 0xEA66, 0xD8FD, 0xC974,
   0x4204, 0x538D, 0x6116, 0x709F, 0x0420, 0x15A9, 0x2732, 0x36BB,
   0xCE4C, 0xDFC5, 0xED5E, 0xFCD7, 0x8868, 0x99E1, 0xAB7A, 0xBAF3,
   0x5285, 0x430C, 0x7197, 0x601E, 0x14A1, 0x0528, 0x37B3, 0x263A,
   0xDECD, 0xCF44, 0xFDDF, 0xEC56, 0x98E9, 0x8960, 0xBBFB, 0xAA72,
   0x6306, 0x728F, 0x4014, 0x519D, 0x2522, 0x34AB, 0x0630, 0x17B9,
   0xEF4E, 0xFEC7, 0xCC5C, 0xDDD5, 0xA96A, 0xB8E3, 0x8A78, 0x9BF1,
   0x7387, 0x620E, 0x5095, 0x411C, 0x35A3, 0x242A, 0x16B1, 0x0738,
   0xFFCF, 0xEE46, 0xDCDD, 0xCD54, 0xB9EB, 0xA862, 0x9AF9, 0x8B70,
   0x8408, 0x9581, 0xA71A, 0xB693, 0xC22C, 0xD3A5, 0xE13E, 0xF0B7,
   0x0840, 0x19C9, 0x2B52, 0x3ADB, 0x4E64, 0x5FED, 0x6D76, 0x7CFF,
   0x9489, 0x8500, 0xB79B, 0xA612, 0xD2AD, 0xC324, 0xF1BF, 0xE036,
   0x18C1, 0x0948, 0x3BD3, 0x2A5A, 0x5EE5, 0x4F6C, 0x7DF7, 0x6C7E,
   0xA50A, 0xB483, 0x8618, 0x9791, 0xE32E, 0xF2A7, 0xC03C, 0xD1B5,
   0x2942, 0x38CB, 0x0A50, 0x1BD9, 0x6F66, 0x7EEF, 0x4C74, 0x5DFD,
   0xB58B, 0xA402, 0x9699, 0x8710, 0xF3AF, 0xE226, 0xD0BD, 0xC134,
   0x39C3, 0x284A, 0x1AD1, 0x0B58, 0x7FE7, 0x6E6E, 0x5CF5, 0x4D7C,
   0xC60C, 0xD785, 0xE51E, 0xF497, 0x8028, 0x91A1, 0xA33A, 0xB2B3,
   0x4A44, 0x5BCD, 0x6956, 0x78DF, 0x0C60, 0x1DE9, 0x2F72, 0x3EFB,
   0xD68D, 0xC704, 0xF59F, 0xE416, 0x90A9, 0x8120, 0xB3BB, 0xA232,
   0x5AC5, 0x4B4C, 0x79D7, 0x685E, 0x1CE1, 0x0D68, 0x3FF3, 0x2E7A,
   0xE70E, 0xF687, 0xC41C, 0xD595, 0xA12A, 0xB0A3, 0x8238, 0x93B1,
   0x6B46, 0x7ACF, 0x4854, 0x59DD, 0x2D62, 0x3CEB, 0x0E70, 0x1FF9,
   0xF78F, 0xE606, 0xD49D, 0xC514, 0xB1AB, 0xA022, 0x92B9, 0x8330,
   0x7BC7, 0x6A4E, 0x58D5, 0x495C, 0x3DE3, 0x2C6A, 0x1EF1, 0x0F78]

/-- Mirrors Go `CRC16CCITT`: `crc = (crc >> 8) ^ crc16Table[(crc^b)&0xFF]`
starting from 0.  All intermediate values stay below 2^16 so no wraparound
modelling is needed. -/
def CRC16CCITT (data : List Nat) : Nat :=
  data.foldl (fun crc b => (crc >>> 8) ^^^ (crc16Table.getD ((crc ^^^ b) &&& 255) 0)) 0

/-- Mirrors Go `decodeIMEI`: the loop `for i := 0; i < 8; i++` over the
nibbles of the 8 input bytes.  The Go `uint64` cannot overflow here (at most
16 decimal digit steps), so plain `Nat` arithmetic is exact. -/
def decodeIMEI (bcd : List Nat) : Nat :=
  (List.range 8).foldl (fun imei i =>
    let b := bcd.getD i 0
    let high := (b >>> 4) &&& 15
    let low := b &&& 15
    if i = 0 ∧ high = 0 then imei * 10 + low
    else (imei * 10 + high) * 10 + low) 0

/-- Mirrors `binary.BigEndian.Uint16` on a 2-byte slice. -/
def bigEndian16 (bs : List Nat) : Nat :=
  (bs.getD 0 0) <<< 8 ||| bs.getD 1 0

/-- Mirrors `binary.BigEndian.Uint32` on a 4-byte slice. -/
def bigEndian32 (bs : List Nat) : Nat :=
  (bs.getD 0 0) <<< 24 ||| (bs.getD 1 0) <<< 16 ||| (bs.getD 2 0) <<< 8 ||| bs.getD 3 0

/-- Mirrors the Go `int32(-)` reinterpretation of a `uint32` value. -/
def toInt32 (n : Nat) : Int :=
  if n < 2147483648 then (n : Int) else (n : Int) - 4294967296

/-- Mirrors the Go `int16(-)` reinterpretation of a `uint16` value. -/
def toInt16 (n : Nat) : Int :=
  if n < 32768 then (n : Int) else (n : Int) - 65536

/-- Uppercase hex digit for a nibble, as produced by
`strings.ToUpper(hex.EncodeToString(..))`. -/
def hexDigitChar (n : Nat) : Char :=
  if n < 10 then Char.ofNat (48 + n) else Char.ofNat (55 + n)

/-- Uppercase big-endian hex rendering of a byte list (2 characters per
byte), as in the Go IO-element `Value` construction. -/
def bytesToHexUpper (bs : List Nat) : String :=
  String.mk (bs.flatMap (fun b => [hexDigitChar ((b >>> 4) &&& 15), hexDigitChar (b &&& 15)]))

/-- Mirrors `fmt.Sprintf("%04X", v)` for a 16-bit value. -/
def toHex4 (n : Nat) : String :=
  String.mk [hexDigitChar ((n >>> 12) &&& 15), hexDigitChar ((n >>> 8) &&& 15),
             hexDigitChar ((n >>> 4) &&& 15), hexDigitChar ((n >>> 0) &&& 15)]

/-! ### The byte-cursor parsing monad

`PM α` models the Go closure state: the input buffer `data` (read-only) and
the cursor `idx`, advanced only by successful reads. -/

def PM (α : Type) : Type :=
  List Nat → Nat → Except RErr (α × Nat)

instance : Monad PM where
  pure a := fun _ i => .ok (a, i)
  bind p f := fun d i =>
    match p d i with
    | .error e => .error e
    | .ok (a, i2) => f a d i2

theorem PM.pure_apply {α : Type} (a : α) (d : List Nat) (i : Nat) :
    (pure a : PM α) d i = .ok (a, i) := rfl

theorem PM.bind_apply {α β : Type} (p : PM α) (f : α → PM β) (d : List Nat) (i : Nat) :
    (p >>= f) d i =
      match p d i with
      | .error e => .error e
      | .ok (a, i2) => f a d i2 := rfl

/-- Mirrors the Go helper `readBytes`: bounds check, slice, advance. -/
def readBytesF (d : List Nat) (idx n : Nat) : Except RErr (List Nat × Nat) :=
  if d.length < idx + n then
    .error (.parseError
      ("insufficient data: need " ++ toString n ++ " bytes, have " ++ toString (d.length - idx))
      idx d)
  else .ok ((d.drop idx).take n, idx + n)

/-- A single field read.  On failure the inner `readBytes` error is wrapped
in a new `ParseError` whose message is `msg ++ ": " ++ err.Error()`, with the
(unchanged) cursor offset and the data buffer, exactly as at every Go call
site of `readBytes`. -/
def readF (n : Nat) (msg : String) : PM (List Nat) := fun d i =>
  match readBytesF d i n with
  | .error e => .error (.parseError (msg ++ ": " ++ e.render) i d)
  | .ok (bs, i2) => .ok (bs, i2)

/-! ### Validation / check steps of the framer -/

/-- Message of the `packet_length` validation error. -/
def packetLengthMessage (actual L : Nat) : String :=
  "Invalid packet. Actual packet data length (" ++ toString actual ++
    " B) is different from the one specified in the packet (" ++ toString L ++ " B)"

/-- Mirrors the `ValidateLength` check (after reading the length field). -/
def pmCheckLength (opts : ParserOptions) (L : Nat) : PM Unit := fun d i =>
  if opts.SkipValidation = false ∧ opts.ValidateLength = true ∧
      (L : Int) ≠ (d.length : Int) - 4 then
    .error (.validationError "packet_length" (toString L)
      (packetLengthMessage (d.length - 4) L))
  else .ok ((), i)

/-- Message of the dead-code guard before the positional CRC read. -/
def invalidLengthMessage (L : Nat) : String :=
  "invalid packet length: " ++ toString L

/-- Message of the `crc` validation error. -/
def crcFailMessage (pktCRC calcCRC : Nat) : String :=
  "CRC check failed. Packet CRC: " ++ toHex4 pktCRC ++ ", Calculated CRC: " ++ toHex4 calcCRC

/-- Mirrors, in Go source order: the unconditional `len(data) < 2` guard
before the positional CRC read, then (when `!SkipValidation && ValidateCRC`)
the `int(pkt.Length)+2 > len(data)` guard — which returns a `ParseError`,
not a `ValidationError` — and the CRC comparison against
`CRC16CCITT(data[2 : 2+pkt.Length])`. -/
def pmGuardCRC (opts : ParserOptions) (L : Nat) : PM Unit := fun d i =>
  if d.length < 2 then
    .error (.parseError "insufficient data for CRC" 0 d)
  else
    let pktCRC := bigEndian16 (d.drop (d.length - 2))
    if opts.SkipValidation = false ∧ opts.ValidateCRC = true then
      if (L : Int) + 2 > (d.length : Int) then
        .error (.parseError (invalidLengthMessage L) 0 d)
      else
        let calcCRC := CRC16CCITT ((d.drop 2).take L)
        if pktCRC ≠ calcCRC then
          .error (.validationError "crc" (toHex4 pktCRC) (crcFailMessage pktCRC calcCRC))
        else .ok ((), i)
    else .ok ((), i)

/-- Mirrors the `MaxRecords` check after reading the record count. -/
def pmCheckMaxRecords (opts : ParserOptions) (numRecords : Nat) : PM Unit := fun _ i =>
  if opts.SkipValidation = false ∧ 0 < opts.MaxRecords ∧
      opts.MaxRecords < (numRecords : Int) then
    .error (.validationError "num_records" (toString numRecords)
      ("too many records: " ++ toString numRecords ++ " (max: " ++ toString opts.MaxRecords ++ ")"))
  else .ok ((), i)

/-! ### Record and IO-element decoding

The Go code re-tests `pkt.CommandID == 68` at each width-dependent read.
Since the command identifier is fixed once read, we thread the equivalent
Boolean `ext := (cmd == 68)` (the command-68 variant carries the record
extension byte, 2-byte IO identifiers and a 2-byte event-IO field), exactly
as the per-site comparisons evaluate. -/

def tsMsg (rec : Nat) : String :=
  "failed to read timestamp for record " ++ toString rec

def tsExtMsg (rec : Nat) : String :=
  "failed to read timestamp extension for record " ++ toString rec

def rextMsg (rec : Nat) : String :=
  "failed to read record extension for record " ++ toString rec

def priMsg (rec : Nat) : String :=
  "failed to read priority for record " ++ toString rec

def lonMsg (rec : Nat) : String :=
  "failed to read longitude for record " ++ toString rec

def latMsg (rec : Nat) : String :=
  "failed to read latitude for record " ++ toString rec

def altMsg (rec : Nat) : String :=
  "failed to read altitude for record " ++ toString rec

def angleMsg (rec : Nat) : String :=
  "failed to read angle for record " ++ toString rec

def satMsg (rec : Nat) : String :=
  "failed to read satellites for record " ++ toString rec

def speedMsg (rec : Nat) : String :=
  "failed to read speed for record " ++ toString rec

def hdopMsg (rec : Nat) : String :=
  "failed to read HDOP for record " ++ toString rec

def eventIOMsg (rec : Nat) : String :=
  "failed to read event IO for record " ++ toString rec

def ioCountMsg (rec size : Nat) : String :=
  "failed to read IO count for record " ++ toString rec ++ ", size " ++ toString size

def ioIDMsg (rec size j : Nat) : String :=
  "failed to read IO ID for record " ++ toString rec ++ ", size " ++ toString size ++
    ", element " ++ toString j

def ioValMsg (b rec size j : Nat) : String :=
  "failed to read IO value byte " ++ toString b ++ " for record " ++ toString rec ++
    ", size " ++ toString size ++ ", element " ++ toString j

/-- The optional record-extension byte: present exactly for command 68. -/
def readRext : Bool → Nat → PM (Option Nat)
  | true, rec => do
    let rB ← readF 1 (rextMsg rec)
    pure (some (rB.getD 0 0))
  | false, _ => pure none

/-- The event-IO field: 2 bytes for command 68, 1 byte otherwise. -/
def readEventField : Bool → Nat → PM Nat
  | true, rec => do
    let eB ← readF 2 (eventIOMsg rec)
    pure (bigEndian16 eB)
  | false, rec => do
    let eB ← readF 1 (eventIOMsg rec)
    pure (eB.getD 0 0)

/-- An IO-element identifier: 2 bytes for command 68, 1 byte otherwise. -/
def readIOID : Bool → Nat → Nat → Nat → PM Nat
  | true, rec, size, j => do
    let b ← readF 2 (ioIDMsg rec size j)
    pure (bigEndian16 b)
  | false, rec, size, j => do
    let b ← readF 1 (ioIDMsg rec size j)
    pure (b.getD 0 0)

/-- The `size`-byte raw value of one IO element, read one byte at a time as
in the Go inner loop (`b` is the running byte index used in error
messages). -/
def readIOVal (rec size j : Nat) : Nat → Nat → List Nat → PM (List Nat)
  | _, 0, acc => pure acc
  | b, r + 1, acc => do
    let vB ← readF 1 (ioValMsg b rec size j)
    readIOVal rec size j (b + 1) r (acc ++ [vB.getD 0 0])

/-- One IO element: identifier then `size` value bytes, rendered uppercase
hex. -/
def parseIOOne (ext : Bool) (rec size j : Nat) : PM IOElement := do
  let ioID ← readIOID ext rec size j
  let valBytes ← readIOVal rec size j 0 size []
  pure { Size := size, ID := ioID, Value := bytesToHexUpper valBytes }

/-- The `ioCount` elements of one size class, appended in arrival order to
the record's accumulated element list `acc` (`j` is the running element
index used in error messages). -/
def parseIOGroup (ext : Bool) (rec size : Nat) : Nat → Nat → List IOElement → PM (List IOElement)
  | _, 0, acc => pure acc
  | j, r + 1, acc => do
    let el ← parseIOOne ext rec size j
    parseIOGroup ext rec size (j + 1) r (acc ++ [el])

/-- The four size-class groups (`for _, size := range []int{1, 2, 4, 8}`):
read a 1-byte count, apply the `MaxIOElements` policy check against the
running total, then read the elements of the class. -/
def parseIOSizes (ext : Bool) (opts : ParserOptions) (rec : Nat) :
    List Nat → List IOElement → PM (List IOElement)
  | [], acc => pure acc
  | size :: rest, acc => do
    let cntB ← readF 1 (ioCountMsg rec size)
    let ioCount := cntB.getD 0 0
    if opts.SkipValidation = false ∧ 0 < opts.MaxIOElements ∧
        opts.MaxIOElements < ((acc.length + ioCount : Nat) : Int) then
      fun _ _ => .error (.validationError "io_elements" (toString (acc.length + ioCount))
        ("too many IO elements: " ++ toString (acc.length + ioCount) ++
          " (max: " ++ toString opts.MaxIOElements ++ ")"))
    else do
      let acc2 ← parseIOGroup ext rec size 0 ioCount acc
      parseIOSizes ext opts rec rest acc2

/-- One record, fields in strict Go read order. -/
def parseRecord (ext : Bool) (opts : ParserOptions) (rec : Nat) : PM RuptelaRecord := do
  let tsB ← readF 4 (tsMsg rec)
  let tsExtB ← readF 1 (tsExtMsg rec)
  let rext ← readRext ext rec
  let priB ← readF 1 (priMsg rec)
  let lonB ← readF 4 (lonMsg rec)
  let latB ← readF 4 (latMsg rec)
  let altB ← readF 2 (altMsg rec)
  let angB ← readF 2 (angleMsg rec)
  let satB ← readF 1 (satMsg rec)
  let spdB ← readF 2 (speedMsg rec)
  let hdopB ← readF 1 (hdopMsg rec)
  let evField ← readEventField ext rec
  let ioElems ← parseIOSizes ext opts rec [1, 2, 4, 8] []
  pure { Timestamp := bigEndian32 tsB
         TimestampExtension := tsExtB.getD 0 0
         RecordExtension := rext
         Priority := priB.getD 0 0
         Longitude := toInt32 (bigEndian32 lonB)
         Latitude := toInt32 (bigEndian32 latB)
         Altitude := toInt16 (bigEndian16 altB)
         Angle := bigEndian16 angB
         Satellites := satB.getD 0 0
         Speed := bigEndian16 spdB
         HDOP := hdopB.getD 0 0
         EventIO := evField
         IOElements := ioElems }

/-- The record loop (`for rec := 0; rec < int(pkt.NumRecords); rec++`). -/
def parseRecordsLoop (ext : Bool) (opts : ParserOptions) :
    Nat → Nat → List RuptelaRecord → PM (List RuptelaRecord)
  | _, 0, acc => pure acc
  | rec, r + 1, acc => do
    let record ← parseRecord ext opts rec
    parseRecordsLoop ext opts (rec + 1) r (acc ++ [record])

/-- The packet framer after the structural guards: length field, the
length/CRC validation steps, IMEI, command, and the command dispatch.  The
packet's `CRC` field (set positionally in Go right after the length checks,
independent of the cursor) is filled in by `parseDataCore` below; its final
value is identical. -/
def parsePM (opts : ParserOptions) : PM RuptelaPacket := do
  let lenB ← readF 2 "failed to read length"
  let L := bigEndian16 lenB
  pmCheckLength opts L
  pmGuardCRC opts L
  let imeiB ← readF 8 "failed to read IMEI"
  let cmdB ← readF 1 "failed to read command ID"
  let cmd := cmdB.getD 0 0
  if cmd = 68 ∨ cmd = 1 then do
    let flagB ← readF 1 "failed to read records flag"
    let numB ← readF 1 "failed to read number of records"
    let numRecords := numB.getD 0 0
    pmCheckMaxRecords opts numRecords
    let records ← parseRecordsLoop (cmd == 68) opts 0 numRecords []
    pure { Length := L, CRC := 0, IMEI := decodeIMEI imeiB, CommandID := cmd,
           RecordsFlag := flagB.getD 0 0, NumRecords := numRecords, Records := records }
  else
    pure { Length := L, CRC := 0, IMEI := decodeIMEI imeiB, CommandID := cmd,
           RecordsFlag := 0, NumRecords := 0, Records := [] }

/-- The declared-length field as read from the buffer start. -/
def declaredLen (dat : List Nat) : Nat := bigEndian16 (dat.take 2)

/-- The positionally read trailing 16-bit CRC. -/
def packetCRC (dat : List Nat) : Nat := bigEndian16 (dat.drop (dat.length - 2))

/-- `ParseRuptelaPacketWithOptions` from the decoded byte buffer onward,
additionally exposing the final cursor position.  Steps in Go order: the
unconditional 13-byte structural minimum, the `MaxPacketSize` policy check,
then `parsePM`; the packet's positional `CRC` field is patched in at the
end (same final value as the mid-stream Go assignment). -/
def parseDataCore (dat : List Nat) (opts : ParserOptions) :
    Except RErr (RuptelaPacket × Nat) :=
  if dat.length < 13 then
    .error (.parseError "packet too short" 0 dat)
  else if opts.SkipValidation = false ∧ 0 < opts.MaxPacketSize ∧
      opts.MaxPacketSize < (dat.length : Int) then
    .error (.validationError "packet_size" (toString dat.length)
      ("packet too large: " ++ toString dat.length ++ " bytes (max: " ++
        toString opts.MaxPacketSize ++ ")"))
  else
    match parsePM opts dat 0 with
    | .error e => .error e
    | .ok (pkt, i) => .ok ({ pkt with CRC := packetCRC dat }, i)

/-- The decode result without the cursor instrumentation. -/
def parseRuptelaData (dat : List Nat) (opts : ParserOptions) : Except RErr RuptelaPacket :=
  Except.map Prod.fst (parseDataCore dat opts)

/-- Mirrors one hex character of `hex.DecodeString` (`0-9`, `a-f`, `A-F`). -/
def hexCharVal (c : Char) : Option Nat :=
  let n := c.toNat
  if 48 ≤ n ∧ n ≤ 57 then some (n - 48)
  else if 97 ≤ n ∧ n ≤ 102 then some (n - 87)
  else if 65 ≤ n ∧ n ≤ 70 then some (n - 55)
  else none

/-- Mirrors `hex.DecodeString` on an even-length character list. -/
def hexDecodeChars : List Char → Option (List Nat)
  | [] => some []
  | [_] => none
  | c1 :: c2 :: rest => do
    let h ← hexCharVal c1
    let l ← hexCharVal c2
    let tail ← hexDecodeChars rest
    pure ((h * 16 + l) :: tail)

/-- Mirrors Go `ParseRuptelaPacketWithOptions` from the hex string: strip
spaces, reject odd length, hex-decode (the Go message embeds the hex package
error text after the colon; we keep the stable prefix), then parse. -/
def ParseRuptelaPacketWithOptions (hexStr : String) (opts : ParserOptions) :
    Except RErr RuptelaPacket :=
  let cleaned := hexStr.toList.filter (fun c => c ≠ ' ')
  if cleaned.length % 2 ≠ 0 then
    .error (.parseError "input hex string must have even length" 0 (cleaned.map Char.toNat))
  else
    match hexDecodeChars cleaned with
    | none => .error (.parseError "invalid hex string" 0 (cleaned.map Char.toNat))
    | some dat => parseRuptelaData dat opts

/-- Mirrors Go `ParseRuptelaPacket` (nil options become the defaults). -/
def ParseRuptelaPacket (hexStr : String) : Except RErr RuptelaPacket :=
  ParseRuptelaPacketWithOptions hexStr DefaultParserOptions

/-! ### Specification-side definitions (for the refinement-style claims) -/

/-- One bit step of the reflected CRC16 recurrence with polynomial 0x8408. -/
def crcBitStep (c : Nat) : Nat :=
  if c % 2 = 1 then (c / 2) ^^^ 0x8408 else c / 2

/-- The table entry the 0x8408 polynomial prescribes for byte `n`: eight bit
steps of the reflected recurrence. -/
def crcTableSpecEntry (n : Nat) : Nat :=
  (List.range 8).foldl (fun c _ => crcBitStep c) n

/-- The nibble sequence of a BCD identifier, high nibble before low nibble,
left byte to right byte (spec wording for the identifier codec). -/
def imeiNibbles (bcd : List Nat) : List Nat :=
  bcd.flatMap (fun b => [(b >>> 4) &&& 15, b &&& 15])

/-- The identifier value per the spec's words: fold `value*10 + digit` over
the nibbles, skipping the very first nibble (the first byte's high nibble)
when it is zero. -/
def imeiSpecFold (bcd : List Nat) : Nat :=
  let ns := imeiNibbles bcd
  let ns2 :=
    match ns with
    | [] => []
    | h :: rest => if h = 0 then rest else h :: rest
  ns2.foldl (fun v d => v * 10 + d) 0

/-! ### Invariant and error-classification predicates -/

/-- Shape facts holding of every record produced by `parseRecord` for the
variant flag `ext` (`ext = (command == 68)`). -/
def RecordWF (ext : Bool) (r : RuptelaRecord) : Prop :=
  (ext = true → r.RecordExtension ≠ none) ∧
  (ext = false → r.RecordExtension = none) ∧
  List.Pairwise (fun a b : IOElement => a.Size ≤ b.Size) r.IOElements ∧
  (∀ el ∈ r.IOElements, el.Size = 1 ∨ el.Size = 2 ∨ el.Size = 4 ∨ el.Size = 8)

/-- Classification of every error the decoder can produce: either a
malformed-encoding parse error, or a policy validation error on one of the
five guarded fields, each only when its enabling configuration holds. -/
def ErrOk (opts : ParserOptions) (e : RErr) : Prop :=
  e.isParse = true ∨
  (opts.SkipValidation = false ∧
    ((e.vField = some "packet_size" ∧ 0 < opts.MaxPacketSize) ∨
     (e.vField = some "packet_length" ∧ opts.ValidateLength = true) ∨
     (e.vField = some "crc" ∧ opts.ValidateCRC = true) ∨
     (e.vField = some "num_records" ∧ 0 < opts.MaxRecords) ∨
     (e.vField = some "io_elements" ∧ 0 < opts.MaxIOElements)))

/-- Replay property of a successful parse step: on any prefix of the buffer
that still contains all bytes the step consumed, the step replays with the
same result; on any prefix cut before the step's final cursor, it fails with
a malformed-encoding parse error. -/
structure PrefixOk {α : Type} (p : PM α) (d : List Nat) (i : Nat) (a : α) (j : Nat) : Prop where
  start_le : i ≤ j
  le_len : j ≤ d.length
  ok_take : ∀ m, j ≤ m → p (d.take m) i = .ok (a, j)
  err_take : ∀ m, i ≤ m → m < j → ∃ e, p (d.take m) i = .error e ∧ e.isParse = true

/-! ### Concrete packets and configurations used by witnesses and
counterexamples -/

/-- All validation disabled (`SkipValidation = true`). -/
def skipOpts : ParserOptions :=
  { ValidateCRC := false, ValidateLength := false, SkipValidation := true,
    MaxPacketSize := 2048, MaxRecords := 100, MaxIOElements := 1000, EnableDebug := false }

/-- CRC validation only (`ValidateCRC = true`, length validation off). -/
def crcOnlyOpts : ParserOptions :=
  { ValidateCRC := true, ValidateLength := false, SkipValidation := false,
    MaxPacketSize := 2048, MaxRecords := 100, MaxIOElements := 1000, EnableDebug := false }

/-- Length validation only (`ValidateLength = true`, CRC validation off). -/
def lenOnlyOpts : ParserOptions :=
  { ValidateCRC := false, ValidateLength := true, SkipValidation := false,
    MaxPacketSize := 2048, MaxRecords := 100, MaxIOElements := 1000, EnableDebug := false }

/-- Limits disabled by the zero value (`MaxRecords = 0`, `MaxIOElements = 0`). -/
def zeroLimitOpts : ParserOptions :=
  { ValidateCRC := false, ValidateLength := false, SkipValidation := false,
    MaxPacketSize := 2048, MaxRecords := 0, MaxIOElements := 0, EnableDebug := false }

/-- A 14-byte command-5 packet (one spare byte before the trailing CRC). -/
def dSpare : List Nat := [0, 10, 1, 2, 3, 4, 5, 6, 7, 8, 5, 171, 205, 239]

/-- The packet `dSpare` decodes to under `skipOpts` (cursor stops at 11). -/
def pktSpare : RuptelaPacket :=
  { Length := 10, CRC := 52719, IMEI := 102030405060708, CommandID := 5,
    RecordsFlag := 0, NumRecords := 0, Records := [] }

/-- A command-68 packet: one record, one 1-byte IO element with a 2-byte
identifier `0x1234`, event-IO bytes `0xAB 0xCD`. -/
def dCmd68 : List Nat :=
  [0, 0, 0, 0, 0, 0, 0, 0, 0, 0, 68, 1, 1,
   0, 0, 0, 1, 2, 7, 3, 0, 0, 0, 4, 0, 0, 0, 5, 0, 6, 0, 7, 8, 0, 9, 10, 171, 205,
   1, 18, 52, 90, 0, 0, 0,
   0, 0]

/-- The packet `dCmd68` decodes to under `skipOpts`. -/
def pktCmd68 : RuptelaPacket :=
  { Length := 0, CRC := 0, IMEI := 0, CommandID := 68, RecordsFlag := 1, NumRecords := 1,
    Records := [{ Timestamp := 1, TimestampExtension := 2, RecordExtension := some 7,
                  Priority := 3, Longitude := 4, Latitude := 5, Altitude := 6, Angle := 7,
                  Satellites := 8, Speed := 9, HDOP := 10, EventIO := 43981,
                  IOElements := [{ Size := 1, ID := 4660, Value := "5A" }] }] }

/-- A command-1 packet: one record, one 1-byte IO element with a 1-byte
identifier `0x12`, a single event-IO byte `0xAB`. -/
def dCmd1 : List Nat :=
  [0, 0, 0, 0, 0, 0, 0, 0, 0, 0, 1, 1, 1,
   0, 0, 0, 1, 2, 3, 0, 0, 0, 4, 0, 0, 0, 5, 0, 6, 0, 7, 8, 0, 9, 10, 171,
   1, 18, 90, 0, 0, 0,
   0, 0]

/-- The packet `dCmd1` decodes to under `skipOpts`. -/
def pktCmd1 : RuptelaPacket :=
  { Length := 0, CRC := 0, IMEI := 0, CommandID := 1, RecordsFlag := 1, NumRecords := 1,
    Records := [{ Timestamp := 1, TimestampExtension := 2, RecordExtension := none,
                  Priority := 3, Longitude := 4, Latitude := 5, Altitude := 6, Angle := 7,
                  Satellites := 8, Speed := 9, HDOP := 10, EventIO := 171,
                  IOElements := [{ Size := 1, ID := 18, Value := "5A" }] }] }

/-- A 13-byte command-5 packet whose declared length field is 0xFFFF. -/
def dBadLen : List Nat := [255, 255, 0, 0, 0, 0, 0, 0, 0, 0, 5, 0, 0]

/-- Same as `dBadLen` except the length field is the correct 9 and the
trailing CRC matches the checksummed region `[0,0,0,0,0,0,0,0,5]`. -/
def dGoodLen : List Nat := [0, 9, 0, 0, 0, 0, 0, 0, 0, 0, 5, 87, 173]

/-- A command-5 packet with three junk bytes between the consumed region and
the trailing CRC bytes `0xAB 0xCD`. -/
def dJunk : List Nat := [0, 0, 0, 0, 0, 0, 0, 0, 0, 0, 5, 9, 9, 9, 171, 205]

/-- The packet `dJunk` decodes to under `skipOpts` (cursor stops at 11,
leaving 3 unconsumed junk bytes before the positional CRC). -/
def pktJunk : RuptelaPacket :=
  { Length := 0, CRC := 43981, IMEI := 0, CommandID := 5,
    RecordsFlag := 0, NumRecords := 0, Records := [] }

/-- A command-1 packet declaring 255 records but providing none. -/
def dManyRecords : List Nat := [0, 0, 0, 0, 0, 0, 0, 0, 0, 0, 1, 0, 255]

/-- The error `dManyRecords` produces (a wrapped cursor parse error at the
first record's timestamp). -/
def eManyRecords : RErr :=
  .parseError
    "failed to read timestamp for record 0: parse error at offset 13: insufficient data: need 4 bytes, have 0"
    13 dManyRecords

/-! ## Basic monad and cursor lemmas -/

theorem PM.pure_ok {α : Type} {a b : α} {d : List Nat} {i j : Nat}
    (h : (pure a : PM α) d i = .ok (b, j)) : b = a ∧ j = i := by
  rw [PM.pure_apply] at h
  simp only [Except.ok.injEq, Prod.mk.injEq] at h
  exact ⟨h.1.symm, h.2.symm⟩

theorem PM.pure_ne_err {α : Type} {a : α} {d : List Nat} {i : Nat} {e : RErr}
    (h : (pure a : PM α) d i = .error e) : False := by
  rw [PM.pure_apply] at h
  exact Except.noConfusion h

theorem PM.bind_ok {α β : Type} {p : PM α} {f : α → PM β} {d : List Nat} {i j : Nat} {b : β}
    (h : (p >>= f) d i = .ok (b, j)) :
    ∃ a i1, p d i = .ok (a, i1) ∧ f a d i1 = .ok (b, j) := by
  rw [PM.bind_apply] at h
  cases hp : p d i with
  | error e2 =>
    simp only [hp] at h
    exact Except.noConfusion h
  | ok pr =>
    obtain ⟨a, i1⟩ := pr
    simp only [hp] at h
    exact ⟨a, i1, rfl, h⟩

theorem PM.bind_err {α β : Type} {p : PM α} {f : α → PM β} {d : List Nat} {i : Nat} {e : RErr}
    (h : (p >>= f) d i = .error e) :
    p d i = .error e ∨ ∃ a i1, p d i = .ok (a, i1) ∧ f a d i1 = .error e := by
  rw [PM.bind_apply] at h
  cases hp : p d i with
  | error e2 =>
    simp only [hp, Except.error.injEq] at h
    subst h
    exact .inl rfl
  | ok pr =>
    obtain ⟨a, i1⟩ := pr
    simp only [hp] at h
    exact .inr ⟨a, i1, rfl, h⟩

theorem PM.bind_ok_intro {α β : Type} {p : PM α} {f : α → PM β} {d : List Nat}
    {i i1 j : Nat} {a : α} {b : β}
    (h1 : p d i = .ok (a, i1)) (h2 : f a d i1 = .ok (b, j)) :
    (p >>= f) d i = .ok (b, j) := by
  rw [PM.bind_apply, h1]; exact h2

theorem PM.bind_err_left {α β : Type} {p : PM α} {f : α → PM β} {d : List Nat}
    {i : Nat} {e : RErr} (h : p d i = .error e) :
    (p >>= f) d i = .error e := by
  rw [PM.bind_apply, h]

theorem PM.bind_err_right {α β : Type} {p : PM α} {f : α → PM β} {d : List Nat}
    {i i1 : Nat} {a : α} {e : RErr}
    (h1 : p d i = .ok (a, i1)) (h2 : f a d i1 = .error e) :
    (p >>= f) d i = .error e := by
  rw [PM.bind_apply, h1]; exact h2

theorem readBytesF_ok {d : List Nat} {idx n : Nat} {bs : List Nat} {j : Nat}
    (h : readBytesF d idx n = .ok (bs, j)) :
    idx + n ≤ d.length ∧ bs = (d.drop idx).take n ∧ j = idx + n := by
  rw [readBytesF] at h
  split at h
  · exact Except.noConfusion h
  · rename_i hle
    simp only [Except.ok.injEq, Prod.mk.injEq] at h
    exact ⟨Nat.le_of_not_lt hle, h.1.symm, h.2.symm⟩

theorem readBytesF_of_le {d : List Nat} {idx n : Nat} (h : idx + n ≤ d.length) :
    readBytesF d idx n = .ok ((d.drop idx).take n, idx + n) := by
  rw [readBytesF, if_neg (Nat.not_lt.mpr h)]

theorem readF_ok {n : Nat} {msg : String} {d : List Nat} {i : Nat} {bs : List Nat} {j : Nat}
    (h : readF n msg d i = .ok (bs, j)) :
    i + n ≤ d.length ∧ bs = (d.drop i).take n ∧ j = i + n := by
  rw [readF] at h
  cases hr : readBytesF d i n with
  | error e =>
    simp only [hr] at h
    exact Except.noConfusion h
  | ok pr =>
    obtain ⟨bs2, i2⟩ := pr
    simp only [hr, Except.ok.injEq, Prod.mk.injEq] at h
    obtain ⟨h4, h5⟩ := h
    subst h4; subst h5
    exact readBytesF_ok hr

theorem readF_of_le {n : Nat} (msg : String) {d : List Nat} {i : Nat}
    (h : i + n ≤ d.length) :
    readF n msg d i = .ok ((d.drop i).take n, i + n) := by
  rw [readF, readBytesF_of_le h]

theorem readF_err_isParse {n : Nat} {msg : String} {d : List Nat} {i : Nat} {e : RErr}
    (h : readF n msg d i = .error e) : e.isParse = true := by
  rw [readF] at h
  cases hr : readBytesF d i n with
  | error e2 =>
    simp only [hr, Except.error.injEq] at h
    rw [← h]; rfl
  | ok pr =>
    obtain ⟨bs2, i2⟩ := pr
    simp only [hr] at h
    exact Except.noConfusion h

theorem readF_err_of_lt {n : Nat} (msg : String) {d : List Nat} {i : Nat}
    (h : d.length < i + n) :
    ∃ e, readF n msg d i = .error e ∧ e.isParse = true := by
  have he : readF n msg d i = .error (.parseError
      (msg ++ ": " ++ (RErr.parseError
        ("insufficient data: need " ++ toString n ++ " bytes, have " ++ toString (d.length - i))
        i d).render) i d) := by
    rw [readF, readBytesF, if_pos h]
  exact ⟨_, he, rfl⟩

theorem take_slice_eq {d : List Nat} {i n m : Nat} (h : i + n ≤ m) :
    ((d.take m).drop i).take n = (d.drop i).take n := by
  rw [List.drop_take, List.take_take]
  congr 1
  omega

/-! ## PrefixOk combinators -/

theorem PrefixOk.run {α : Type} {p : PM α} {d : List Nat} {i : Nat} {a : α} {j : Nat}
    (h : PrefixOk p d i a j) : p d i = .ok (a, j) := by
  have h2 := h.ok_take d.length h.le_len
  rwa [List.take_length] at h2

theorem readF_prefixOk {n : Nat} {msg : String} {d : List Nat} {i : Nat}
    {bs : List Nat} {j : Nat} (h : readF n msg d i = .ok (bs, j)) :
    PrefixOk (readF n msg) d i bs j := by
  obtain ⟨hle, hbs, hj⟩ := readF_ok h
  subst hbs; subst hj
  refine ⟨Nat.le_add_right i n, hle, ?_, ?_⟩
  · intro m hm
    rw [readF, readBytesF,
      if_neg (by rw [List.length_take]; omega),
      take_slice_eq hm]
  · intro m _ hm
    exact readF_err_of_lt msg (by rw [List.length_take]; omega)

theorem pure_prefixOk {α : Type} {a : α} {d : List Nat} {i : Nat} (h : i ≤ d.length) :
    PrefixOk (pure a : PM α) d i a i :=
  ⟨Nat.le_refl i, h, fun _ _ => rfl, fun _ h1 h2 => absurd h1 (Nat.not_le.mpr h2)⟩

theorem PrefixOk.bindP {α β : Type} {p : PM α} {f : α → PM β} {d : List Nat}
    {i j1 j2 : Nat} {a : α} {b : β}
    (hp : PrefixOk p d i a j1) (hf : PrefixOk (f a) d j1 b j2) :
    PrefixOk (p >>= f) d i b j2 := by
  refine ⟨Nat.le_trans hp.start_le hf.start_le, hf.le_len, ?_, ?_⟩
  · intro m hm
    exact PM.bind_ok_intro (hp.ok_take m (Nat.le_trans hf.start_le hm)) (hf.ok_take m hm)
  · intro m him hm
    by_cases h1 : m < j1
    · obtain ⟨e, he, hp2⟩ := hp.err_take m him h1
      exact ⟨e, PM.bind_err_left he, hp2⟩
    · obtain ⟨e, he, hp2⟩ := hf.err_take m (Nat.le_of_not_lt h1) hm
      exact ⟨e, PM.bind_err_right (hp.ok_take m (Nat.le_of_not_lt h1)) he, hp2⟩

/-! ## Checksum engine (C6) -/

set_option maxRecDepth 20000

/-- Claim C6: the checksum function is a pure deterministic function of its
input bytes, computed by the table-driven CRC16-CCITT (polynomial 0x8408)
recurrence with initial value 0 and no final XOR: starting from `crc = 0`,
for each input byte in order `crc` becomes
`(crc >> 8) XOR table[(crc XOR byte) & 0xFF]`, the 256 table entries being
exactly the eight-step 0x8408 bit recurrence applied to the entry index;
equal inputs always yield equal outputs. -/
theorem claim6_checksum_pure_table_driven :
    CRC16CCITT [] = 0 ∧
    (∀ bs b, CRC16CCITT (bs ++ [b]) =
        (CRC16CCITT bs >>> 8) ^^^ crc16Table.getD ((CRC16CCITT bs ^^^ b) &&& 255) 0) ∧
    (∀ i < 256, crc16Table.getD i 0 = crcTableSpecEntry i) ∧
    (∀ b1 b2 : List Nat, b1 = b2 → CRC16CCITT b1 = CRC16CCITT b2) := by
  refine ⟨rfl, ?_, by decide, ?_⟩
  · intro bs b
    rw [CRC16CCITT, CRC16CCITT, List.foldl_append]
    rfl
  · intro b1 b2 h
    rw [h]

/-- Witness for C6 at concrete inputs. -/
theorem claim6_checksum_witness :
    crc16Table.getD 5 0 = crcTableSpecEntry 5 ∧ CRC16CCITT [1, 2] = CRC16CCITT [1, 2] :=
  ⟨claim6_checksum_pure_table_driven.2.2.1 5 (by decide),
   claim6_checksum_pure_table_driven.2.2.2 [1, 2] [1, 2] rfl⟩

/-! ## Identifier codec (C7) -/

/-- Claim C7: for every 8-byte device-identifier buffer, `decodeIMEI` equals
the fold `value = value*10 + digit` over the nibbles taken high-before-low,
left byte to right byte, except that the first byte's high nibble is skipped
when it is zero; no nibble-range validation is performed, so nibbles above 9
feed the same formula without failing (e.g. the byte 0xFF contributes the
digits 15, 15). -/
theorem claim7_imei_bcd_fold :
    (∀ bcd : List Nat, bcd.length = 8 → decodeIMEI bcd = imeiSpecFold bcd) ∧
    decodeIMEI [255, 0, 0, 0, 0, 0, 0, 0] = 16500000000000000 := by
  constructor
  · intro bcd h
    rcases bcd with _ | ⟨b0, t⟩; · simp at h
    rcases t with _ | ⟨b1, t⟩; · simp at h
    rcases t with _ | ⟨b2, t⟩; · simp at h
    rcases t with _ | ⟨b3, t⟩; · simp at h
    rcases t with _ | ⟨b4, t⟩; · simp at h
    rcases t with _ | ⟨b5, t⟩; · simp at h
    rcases t with _ | ⟨b6, t⟩; · simp at h
    rcases t with _ | ⟨b7, t⟩; · simp at h
    simp only [List.length_cons] at h
    have ht : t = [] := List.eq_nil_of_length_eq_zero (by omega)
    subst ht
    by_cases h0 : (b0 >>> 4) &&& 15 = 0
    · simp [decodeIMEI, imeiSpecFold, imeiNibbles, h0, List.range_succ]
    · simp [decodeIMEI, imeiSpecFold, imeiNibbles, h0, List.range_succ]
  · decide

/-- Witness for C7 on a concrete in-range identifier. -/
theorem claim7_imei_witness :
    decodeIMEI [53, 32, 147, 0, 17, 34, 51, 68] = imeiSpecFold [53, 32, 147, 0, 17, 34, 51, 68] :=
  claim7_imei_bcd_fold.1 [53, 32, 147, 0, 17, 34, 51, 68] rfl

/-! ## Structural minimum size guard (C3) -/

/-- Claim C3: any decoded buffer shorter than 13 bytes fails, under every
validation configuration, with the malformed-encoding "packet too short"
error; in particular the 5-byte hex input "0102030405" always fails this
way. -/
theorem claim3_min_size_guard :
    (∀ (dat : List Nat) (opts : ParserOptions), dat.length < 13 →
        parseRuptelaData dat opts = .error (.parseError "packet too short" 0 dat)) ∧
    (∀ opts : ParserOptions,
        ParseRuptelaPacketWithOptions "0102030405" opts =
          .error (.parseError "packet too short" 0 [1, 2, 3, 4, 5])) := by
  have key : ∀ (dat : List Nat) (opts : ParserOptions), dat.length < 13 →
      parseRuptelaData dat opts = .error (.parseError "packet too short" 0 dat) := by
    intro dat opts h
    rw [parseRuptelaData, parseDataCore, if_pos h]
    rfl
  exact ⟨key, fun opts => key [1, 2, 3, 4, 5] opts (by decide)⟩

/-- Witness for C3 at concrete inputs and configurations. -/
theorem claim3_min_size_witness :
    parseRuptelaData [1, 2, 3] skipOpts = .error (.parseError "packet too short" 0 [1, 2, 3]) ∧
    ParseRuptelaPacketWithOptions "0102030405" DefaultParserOptions =
      .error (.parseError "packet too short" 0 [1, 2, 3, 4, 5]) :=
  ⟨claim3_min_size_guard.1 [1, 2, 3] skipOpts (by decide),
   claim3_min_size_guard.2 DefaultParserOptions⟩

/-! ## Successful-decode shape analysis (C2, C8) -/

theorem PM.ite_ok {α : Type} {c : Prop} [Decidable c] {A B : PM α} {d : List Nat}
    {i : Nat} {a : α} {j : Nat}
    (h : (if c then A else B) d i = .ok (a, j)) :
    (c ∧ A d i = .ok (a, j)) ∨ (¬c ∧ B d i = .ok (a, j)) := by
  by_cases hc : c
  · rw [if_pos hc] at h; exact .inl ⟨hc, h⟩
  · rw [if_neg hc] at h; exact .inr ⟨hc, h⟩

theorem pmCheckLength_ok {opts : ParserOptions} {L : Nat} {d : List Nat} {i : Nat}
    {u : Unit} {j : Nat} (h : pmCheckLength opts L d i = .ok (u, j)) : j = i := by
  rw [pmCheckLength] at h
  split at h
  · exact Except.noConfusion h
  · simp only [Except.ok.injEq, Prod.mk.injEq] at h
    exact h.2.symm

theorem pmGuardCRC_ok {opts : ParserOptions} {L : Nat} {d : List Nat} {i : Nat}
    {u : Unit} {j : Nat} (h : pmGuardCRC opts L d i = .ok (u, j)) : j = i := by
  rw [pmGuardCRC] at h
  split at h
  · exact Except.noConfusion h
  · split at h
    · split at h
      · exact Except.noConfusion h
      · simp only [] at h
        split at h
        · exact Except.noConfusion h
        · simp only [Except.ok.injEq, Prod.mk.injEq] at h
          exact h.2.symm
    · simp only [Except.ok.injEq, Prod.mk.injEq] at h
      exact h.2.symm

theorem pmCheckMaxRecords_ok {opts : ParserOptions} {n : Nat} {d : List Nat} {i : Nat}
    {u : Unit} {j : Nat} (h : pmCheckMaxRecords opts n d i = .ok (u, j)) : j = i := by
  rw [pmCheckMaxRecords] at h
  split at h
  · exact Except.noConfusion h
  · simp only [Except.ok.injEq, Prod.mk.injEq] at h
    exact h.2.symm

theorem readRext_ok_shape {ext : Bool} {rec : Nat} {d : List Nat} {i : Nat}
    {o : Option Nat} {j : Nat} (h : readRext ext rec d i = .ok (o, j)) :
    (ext = true → o ≠ none) ∧ (ext = false → o = none) := by
  cases ext
  · obtain ⟨h1, _⟩ := PM.pure_ok h
    subst h1
    exact ⟨fun hx => Bool.noConfusion hx, fun _ => rfl⟩
  · obtain ⟨rB, i1, h1, h2⟩ := PM.bind_ok h
    obtain ⟨h3, _⟩ := PM.pure_ok h2
    subst h3
    exact ⟨fun _ => by simp, fun hx => Bool.noConfusion hx⟩

theorem parseIOOne_ok_size {ext : Bool} {rec size jj : Nat} {d : List Nat} {i : Nat}
    {el : IOElement} {j : Nat} (h : parseIOOne ext rec size jj d i = .ok (el, j)) :
    el.Size = size := by
  obtain ⟨ioID, i1, h1, h⟩ := PM.bind_ok h
  obtain ⟨vb, i2, h2, h⟩ := PM.bind_ok h
  obtain ⟨h3, _⟩ := PM.pure_ok h
  subst h3
  rfl

theorem parseIOGroup_ok_shape {ext : Bool} {rec size : Nat} :
    ∀ (r jj : Nat) (acc : List IOElement) (d : List Nat) (i : Nat)
      (res : List IOElement) (j : Nat),
      parseIOGroup ext rec size jj r acc d i = .ok (res, j) →
      ∃ new, res = acc ++ new ∧ ∀ el ∈ new, el.Size = size := by
  intro r
  induction r with
  | zero =>
    intro jj acc d i res j h
    obtain ⟨h1, _⟩ := PM.pure_ok h
    subst h1
    exact ⟨[], by simp, by simp⟩
  | succ n ih =>
    intro jj acc d i res j h
    obtain ⟨el, i1, h1, h2⟩ := PM.bind_ok h
    obtain ⟨new, hres, hall⟩ := ih (jj + 1) (acc ++ [el]) d i1 res j h2
    refine ⟨el :: new, by simp [hres], ?_⟩
    intro x hx
    rcases List.mem_cons.mp hx with hx | hx
    · subst hx; exact parseIOOne_ok_size h1
    · exact hall x hx

theorem parseIOSizes_ok_shape {ext : Bool} {opts : ParserOptions} {rec : Nat} :
    ∀ (sizes : List Nat) (acc : List IOElement) (d : List Nat) (i : Nat)
      (res : List IOElement) (j : Nat),
      parseIOSizes ext opts rec sizes acc d i = .ok (res, j) →
      ∃ new, res = acc ++ new ∧ (∀ el ∈ new, el.Size ∈ sizes) ∧
        (List.Pairwise (· ≤ ·) sizes →
          List.Pairwise (fun a b : IOElement => a.Size ≤ b.Size) new) := by
  intro sizes
  induction sizes with
  | nil =>
    intro acc d i res j h
    obtain ⟨h1, _⟩ := PM.pure_ok h
    subst h1
    exact ⟨[], by simp, by simp, by simp⟩
  | cons s rest ih =>
    intro acc d i res j h
    obtain ⟨cntB, i1, h1, h2⟩ := PM.bind_ok h
    rcases PM.ite_ok h2 with ⟨_, h3⟩ | ⟨_, h3⟩
    · exact Except.noConfusion h3
    · obtain ⟨acc2, i2, h4, h5⟩ := PM.bind_ok h3
      obtain ⟨g, hacc2, hg⟩ := parseIOGroup_ok_shape (cntB.getD 0 0) 0 acc d i1 acc2 i2 h4
      obtain ⟨new2, hres, hmem2, hpair2⟩ := ih acc2 d i2 res j h5
      subst hacc2
      refine ⟨g ++ new2, by simp [hres], ?_, ?_⟩
      · intro el hel
        rcases List.mem_append.mp hel with hel | hel
        · rw [hg el hel]; exact List.mem_cons_self s rest
        · exact List.mem_cons_of_mem s (hmem2 el hel)
      · intro hsorted
        rcases List.pairwise_cons.mp hsorted with ⟨hs_rest, hrest⟩
        rw [List.pairwise_append]
        refine ⟨?_, hpair2 hrest, ?_⟩
        · apply List.pairwise_of_forall_mem_list
          intro a ha bel hb
          rw [hg a ha, hg bel hb]
        · intro a ha bel hb
          rw [hg a ha]
          have hbmem := hmem2 bel hb
          exact hs_rest bel.Size hbmem

theorem parseRecord_ok_wf {ext : Bool} {opts : ParserOptions} {rec : Nat} {d : List Nat}
    {i : Nat} {r : RuptelaRecord} {j : Nat}
    (h : parseRecord ext opts rec d i = .ok (r, j)) : RecordWF ext r := by
  obtain ⟨tsB, i1, h1, h⟩ := PM.bind_ok h
  obtain ⟨tsExtB, i2, h2, h⟩ := PM.bind_ok h
  obtain ⟨rext, i3, h3, h⟩ := PM.bind_ok h
  obtain ⟨priB, i4, h4, h⟩ := PM.bind_ok h
  obtain ⟨lonB, i5, h5, h⟩ := PM.bind_ok h
  obtain ⟨latB, i6, h6, h⟩ := PM.bind_ok h
  obtain ⟨altB, i7, h7, h⟩ := PM.bind_ok h
  obtain ⟨angB, i8, h8, h⟩ := PM.bind_ok h
  obtain ⟨satB, i9, h9, h⟩ := PM.bind_ok h
  obtain ⟨spdB, i10, h10, h⟩ := PM.bind_ok h
  obtain ⟨hdopB, i11, h11, h⟩ := PM.bind_ok h
  obtain ⟨evF, i12, h12, h⟩ := PM.bind_ok h
  obtain ⟨ioEls, i13, h13, h⟩ := PM.bind_ok h
  obtain ⟨hr, _⟩ := PM.pure_ok h
  subst hr
  obtain ⟨hx1, hx2⟩ := readRext_ok_shape h3
  obtain ⟨new, hres, hmem, hpair⟩ := parseIOSizes_ok_shape [1, 2, 4, 8] [] d i12 ioEls i13 h13
  have hioEls : ioEls = new := by simpa using hres
  refine ⟨hx1, hx2, ?_, ?_⟩
  · show List.Pairwise _ ioEls
    rw [hioEls]
    exact hpair (by decide)
  · intro el hel
    rw [hioEls] at hel
    have hm := hmem el hel
    simp only [List.mem_cons, List.mem_singleton, List.not_mem_nil, or_false] at hm
    tauto

theorem parseRecordsLoop_ok_shape {ext : Bool} {opts : ParserOptions} :
    ∀ (r rec : Nat) (acc : List RuptelaRecord) (d : List Nat) (i : Nat)
      (res : List RuptelaRecord) (j : Nat),
      parseRecordsLoop ext opts rec r acc d i = .ok (res, j) →
      res.length = acc.length + r ∧ ∀ x ∈ res, x ∈ acc ∨ RecordWF ext x := by
  intro r
  induction r with
  | zero =>
    intro rec acc d i res j h
    obtain ⟨h1, _⟩ := PM.pure_ok h
    subst h1
    exact ⟨by simp, fun x hx => .inl hx⟩
  | succ n ih =>
    intro rec acc d i res j h
    obtain ⟨rc, i1, h1, h2⟩ := PM.bind_ok h
    obtain ⟨hlen, hall⟩ := ih (rec + 1) (acc ++ [rc]) d i1 res j h2
    constructor
    · simp only [List.length_append, List.length_singleton] at hlen
      omega
    · intro x hx
      rcases hall x hx with hmem | hwf
      · rcases List.mem_append.mp hmem with hmem | hmem
        · exact .inl hmem
        · right
          have hx2 : x = rc := by simpa using hmem
          subst hx2
          exact parseRecord_ok_wf h1
      · exact .inr hwf

theorem parsePM_ok_shape {opts : ParserOptions} {d : List Nat} {i0 : Nat}
    {pkt : RuptelaPacket} {j : Nat} (h : parsePM opts d i0 = .ok (pkt, j)) :
    pkt.NumRecords = pkt.Records.length ∧
    (∀ rc ∈ pkt.Records, RecordWF (pkt.CommandID == 68) rc) ∧
    ((pkt.CommandID ≠ 68 ∧ pkt.CommandID ≠ 1) →
      pkt.Records = [] ∧ pkt.RecordsFlag = 0 ∧ pkt.NumRecords = 0 ∧ j = i0 + 11) := by
  obtain ⟨lenB, i1, h1, h⟩ := PM.bind_ok h
  obtain ⟨u1, i2, h2, h⟩ := PM.bind_ok h
  obtain ⟨u2, i3, h3, h⟩ := PM.bind_ok h
  obtain ⟨imeiB, i4, h4, h⟩ := PM.bind_ok h
  obtain ⟨cmdB, i5, h5, h⟩ := PM.bind_ok h
  rcases PM.ite_ok h with ⟨hc, h⟩ | ⟨hc, h⟩
  · obtain ⟨flagB, i6, h6, h⟩ := PM.bind_ok h
    obtain ⟨numB, i7, h7, h⟩ := PM.bind_ok h
    obtain ⟨u3, i8, h8, h⟩ := PM.bind_ok h
    obtain ⟨records, i9, h9, h⟩ := PM.bind_ok h
    obtain ⟨hp, hj⟩ := PM.pure_ok h
    subst hp
    obtain ⟨hlen, hall⟩ := parseRecordsLoop_ok_shape (numB.getD 0 0) 0 [] d i8 records i9 h9
    refine ⟨?_, ?_, ?_⟩
    · simpa using hlen.symm
    · intro rc hrc
      rcases hall rc hrc with hmem | hwf
      · simp at hmem
      · exact hwf
    · intro hne
      rcases hc with hc | hc
      · exact absurd hc hne.1
      · exact absurd hc hne.2
  · obtain ⟨hp, hj⟩ := PM.pure_ok h
    subst hp
    refine ⟨rfl, by simp, fun _ => ⟨rfl, rfl, rfl, ?_⟩⟩
    obtain ⟨_, _, hi1⟩ := readF_ok h1
    have hi2 := pmCheckLength_ok h2
    have hi3 := pmGuardCRC_ok h3
    obtain ⟨_, _, hi4⟩ := readF_ok h4
    obtain ⟨_, _, hi5⟩ := readF_ok h5
    omega

theorem parseDataCore_ok {dat : List Nat} {opts : ParserOptions} {pkt : RuptelaPacket}
    {i : Nat} (h : parseDataCore dat opts = .ok (pkt, i)) :
    ∃ pkt0, parsePM opts dat 0 = .ok (pkt0, i) ∧ pkt = { pkt0 with CRC := packetCRC dat } ∧
      13 ≤ dat.length ∧
      ¬(opts.SkipValidation = false ∧ 0 < opts.MaxPacketSize ∧
          opts.MaxPacketSize < (dat.length : Int)) := by
  rw [parseDataCore] at h
  split at h
  · exact Except.noConfusion h
  · rename_i hn13
    split at h
    · exact Except.noConfusion h
    · rename_i hnsize
      cases hp : parsePM opts dat 0 with
      | error e =>
        simp only [hp] at h
        exact Except.noConfusion h
      | ok pr =>
        obtain ⟨pkt0, i9⟩ := pr
        simp only [hp, Except.ok.injEq, Prod.mk.injEq] at h
        exact ⟨pkt0, by rw [h.2], h.1.symm, Nat.le_of_not_lt hn13, hnsize⟩

/-- Claim C2: decoding dispatches on the command byte read after the 8-byte
identifier: commands other than 68 and 1 yield a packet with no records, a
zero records-flag and record count, the cursor stopping right after the
command byte (offset 11); every record of a command-68 packet carries a
present record-extension byte, every record of a command-1 packet has none;
the concrete decodes of `dCmd68` and `dCmd1` exhibit the 2-byte versus
1-byte element-identifier and event-IO widths (identifier 0x1234 and
event-IO 0xABCD read from two bytes for command 68; identifier 0x12 and
event-IO 0xAB from one byte for command 1). -/
theorem claim2_command_dispatch :
    (∀ (dat : List Nat) (opts : ParserOptions) (pkt : RuptelaPacket) (i : Nat),
        parseDataCore dat opts = .ok (pkt, i) →
        ((pkt.CommandID ≠ 68 ∧ pkt.CommandID ≠ 1) →
            pkt.Records = [] ∧ pkt.RecordsFlag = 0 ∧ pkt.NumRecords = 0 ∧ i = 11) ∧
        (pkt.CommandID = 68 → ∀ r ∈ pkt.Records, r.RecordExtension ≠ none) ∧
        (pkt.CommandID = 1 → ∀ r ∈ pkt.Records, r.RecordExtension = none)) ∧
    parseRuptelaData dCmd68 skipOpts = .ok pktCmd68 ∧
    parseRuptelaData dCmd1 skipOpts = .ok pktCmd1 := by
  refine ⟨?_, by rfl, by rfl⟩
  intro dat opts pkt i h
  obtain ⟨pkt0, hpm, hpkt, _, _⟩ := parseDataCore_ok h
  obtain ⟨hnum, hwf, hother⟩ := parsePM_ok_shape hpm
  have hCmd : pkt.CommandID = pkt0.CommandID := by rw [hpkt]
  have hRec : pkt.Records = pkt0.Records := by rw [hpkt]
  have hFlag : pkt.RecordsFlag = pkt0.RecordsFlag := by rw [hpkt]
  have hNum : pkt.NumRecords = pkt0.NumRecords := by rw [hpkt]
  rw [hCmd, hRec, hFlag, hNum]
  refine ⟨?_, ?_, ?_⟩
  · intro hne
    obtain ⟨ha, hb, hc2, hd⟩ := hother hne
    exact ⟨ha, hb, hc2, by omega⟩
  · intro h68 r hr
    have hx := (hwf r hr).1
    rw [h68] at hx
    exact hx rfl
  · intro h1 r hr
    have hx := (hwf r hr).2.1
    rw [h1] at hx
    exact hx rfl

/-- Witness for C2 on the concrete command-5 packet `dSpare`. -/
theorem claim2_witness :
    (pktSpare.CommandID ≠ 68 ∧ pktSpare.CommandID ≠ 1) →
      pktSpare.Records = [] ∧ pktSpare.RecordsFlag = 0 ∧ pktSpare.NumRecords = 0 ∧ 11 = 11 :=
  ((claim2_command_dispatch.1 dSpare skipOpts pktSpare 11 (by rfl)).1)

/-- Claim C8: whenever decoding succeeds, the declared record count equals
the length of the record sequence (zero for non-record commands), and each
record's IO elements appear grouped in width-class order 1, 2, 4, 8 (their
size sequence is monotone), every width being one of the four classes;
arrival order within a class is the list order itself. -/
theorem claim8_invariants :
    ∀ (dat : List Nat) (opts : ParserOptions) (pkt : RuptelaPacket) (i : Nat),
      parseDataCore dat opts = .ok (pkt, i) →
      pkt.NumRecords = pkt.Records.length ∧
      ∀ r ∈ pkt.Records,
        List.Pairwise (fun a b : IOElement => a.Size ≤ b.Size) r.IOElements ∧
        ∀ el ∈ r.IOElements, el.Size = 1 ∨ el.Size = 2 ∨ el.Size = 4 ∨ el.Size = 8 := by
  intro dat opts pkt i h
  obtain ⟨pkt0, hpm, hpkt, _, _⟩ := parseDataCore_ok h
  obtain ⟨hnum, hwf, _⟩ := parsePM_ok_shape hpm
  have hRec : pkt.Records = pkt0.Records := by rw [hpkt]
  have hNum : pkt.NumRecords = pkt0.NumRecords := by rw [hpkt]
  rw [hRec, hNum]
  exact ⟨hnum, fun r hr => ⟨(hwf r hr).2.2.1, (hwf r hr).2.2.2⟩⟩

/-- Witness for C8 on the concrete command-68 packet `dCmd68`. -/
theorem claim8_witness :
    pktCmd68.NumRecords = pktCmd68.Records.length ∧
    ∀ r ∈ pktCmd68.Records,
      List.Pairwise (fun a b : IOElement => a.Size ≤ b.Size) r.IOElements ∧
      ∀ el ∈ r.IOElements, el.Size = 1 ∨ el.Size = 2 ∨ el.Size = 4 ∨ el.Size = 8 :=
  claim8_invariants dCmd68 skipOpts pktCmd68 45 (by rfl)

/-! ## Error classification and validation-step behavior (C4, C5, C9, C10) -/

/-- Claim C9: a successful decode does not require the cursor to have
consumed the buffer up to the trailing checksum: the packet's CRC field is
always taken positionally from the final two bytes regardless of cursor
position, and a buffer with extra undeclared bytes between the consumed
region and the trailing CRC still decodes successfully when length and
checksum validation are disabled. -/
theorem claim9_trailing_slack :
    (∀ (dat : List Nat) (opts : ParserOptions) (pkt : RuptelaPacket) (i : Nat),
        parseDataCore dat opts = .ok (pkt, i) → pkt.CRC = packetCRC dat) ∧
    parseDataCore dJunk skipOpts = .ok (pktJunk, 11) ∧ 11 + 2 < dJunk.length := by
  refine ⟨?_, by rfl, by decide⟩
  intro dat opts pkt i h
  obtain ⟨pkt0, _, hpkt, _, _⟩ := parseDataCore_ok h
  rw [hpkt]

/-- Witness for C9 on the junk-padded packet. -/
theorem claim9_witness : pktJunk.CRC = packetCRC dJunk :=
  claim9_trailing_slack.1 dJunk skipOpts pktJunk 11 (by rfl)

theorem PM.ite_err {α : Type} {c : Prop} [Decidable c] {A B : PM α} {d : List Nat}
    {i : Nat} {e : RErr}
    (h : (if c then A else B) d i = .error e) :
    (c ∧ A d i = .error e) ∨ (¬c ∧ B d i = .error e) := by
  by_cases hc : c
  · rw [if_pos hc] at h; exact .inl ⟨hc, h⟩
  · rw [if_neg hc] at h; exact .inr ⟨hc, h⟩

theorem vField_of_isParse {e : RErr} (h : e.isParse = true) : e.vField = none := by
  cases e
  · rfl
  · exact Bool.noConfusion h

theorem readRext_err {ext : Bool} {rec : Nat} {d : List Nat} {i : Nat} {e : RErr}
    (h : readRext ext rec d i = .error e) : e.isParse = true := by
  cases ext
  · exact (PM.pure_ne_err h).elim
  · rcases PM.bind_err h with h | ⟨a, i1, h1, h2⟩
    · exact readF_err_isParse h
    · exact (PM.pure_ne_err h2).elim

theorem readEventField_err {ext : Bool} {rec : Nat} {d : List Nat} {i : Nat} {e : RErr}
    (h : readEventField ext rec d i = .error e) : e.isParse = true := by
  cases ext <;>
    (rcases PM.bind_err h with h | ⟨a, i1, h1, h2⟩
     · exact readF_err_isParse h
     · exact (PM.pure_ne_err h2).elim)

theorem readIOID_err {ext : Bool} {rec size j : Nat} {d : List Nat} {i : Nat} {e : RErr}
    (h : readIOID ext rec size j d i = .error e) : e.isParse = true := by
  cases ext <;>
    (rcases PM.bind_err h with h | ⟨a, i1, h1, h2⟩
     · exact readF_err_isParse h
     · exact (PM.pure_ne_err h2).elim)

theorem readIOVal_err {rec size j : Nat} :
    ∀ (r b : Nat) (acc : List Nat) (d : List Nat) (i : Nat) (e : RErr),
      readIOVal rec size j b r acc d i = .error e → e.isParse = true := by
  intro r
  induction r with
  | zero => intro b acc d i e h; exact (PM.pure_ne_err h).elim
  | succ n ih =>
    intro b acc d i e h
    rcases PM.bind_err h with h | ⟨a, i1, h1, h2⟩
    · exact readF_err_isParse h
    · exact ih (b + 1) (acc ++ [a.getD 0 0]) d i1 e h2

theorem parseIOOne_err {ext : Bool} {rec size jj : Nat} {d : List Nat} {i : Nat} {e : RErr}
    (h : parseIOOne ext rec size jj d i = .error e) : e.isParse = true := by
  rcases PM.bind_err h with h | ⟨a, i1, h1, h⟩
  · exact readIOID_err h
  · rcases PM.bind_err h with h | ⟨a2, i2, h2, h⟩
    · exact readIOVal_err size 0 [] d i1 e h
    · exact (PM.pure_ne_err h).elim

theorem parseIOGroup_err {ext : Bool} {rec size : Nat} :
    ∀ (r jj : Nat) (acc : List IOElement) (d : List Nat) (i : Nat) (e : RErr),
      parseIOGroup ext rec size jj r acc d i = .error e → e.isParse = true := by
  intro r
  induction r with
  | zero => intro jj acc d i e h; exact (PM.pure_ne_err h).elim
  | succ n ih =>
    intro jj acc d i e h
    rcases PM.bind_err h with h | ⟨a, i1, h1, h2⟩
    · exact parseIOOne_err h
    · exact ih (jj + 1) (acc ++ [a]) d i1 e h2

theorem parseIOSizes_err {ext : Bool} {opts : ParserOptions} {rec : Nat} :
    ∀ (sizes : List Nat) (acc : List IOElement) (d : List Nat) (i : Nat) (e : RErr),
      parseIOSizes ext opts rec sizes acc d i = .error e →
      e.isParse = true ∨
        (opts.SkipValidation = false ∧ 0 < opts.MaxIOElements ∧
          e.vField = some "io_elements") := by
  intro sizes
  induction sizes with
  | nil => intro acc d i e h; exact (PM.pure_ne_err h).elim
  | cons s rest ih =>
    intro acc d i e h
    rcases PM.bind_err h with h | ⟨cntB, i1, h1, h⟩
    · exact .inl (readF_err_isParse h)
    · rcases PM.ite_err h with ⟨hc, h⟩ | ⟨hc, h⟩
      · simp only [Except.error.injEq] at h
        refine .inr ⟨hc.1, hc.2.1, ?_⟩
        rw [← h]
        rfl
      · rcases PM.bind_err h with h | ⟨acc2, i2, h2, h⟩
        · exact .inl (parseIOGroup_err (cntB.getD 0 0) 0 acc d i1 e h)
        · exact ih acc2 d i2 e h

theorem parseRecord_err {ext : Bool} {opts : ParserOptions} {rec : Nat} {d : List Nat}
    {i : Nat} {e : RErr} (h : parseRecord ext opts rec d i = .error e) :
    e.isParse = true ∨
      (opts.SkipValidation = false ∧ 0 < opts.MaxIOElements ∧
        e.vField = some "io_elements") := by
  rcases PM.bind_err h with h | ⟨tsB, i1, h1, h⟩
  · exact .inl (readF_err_isParse h)
  rcases PM.bind_err h with h | ⟨tsExtB, i2, h2, h⟩
  · exact .inl (readF_err_isParse h)
  rcases PM.bind_err h with h | ⟨rext, i3, h3, h⟩
  · exact .inl (readRext_err h)
  rcases PM.bind_err h with h | ⟨priB, i4, h4, h⟩
  · exact .inl (readF_err_isParse h)
  rcases PM.bind_err h with h | ⟨lonB, i5, h5, h⟩
  · exact .inl (readF_err_isParse h)
  rcases PM.bind_err h with h | ⟨latB, i6, h6, h⟩
  · exact .inl (readF_err_isParse h)
  rcases PM.bind_err h with h | ⟨altB, i7, h7, h⟩
  · exact .inl (readF_err_isParse h)
  rcases PM.bind_err h with h | ⟨angB, i8, h8, h⟩
  · exact .inl (readF_err_isParse h)
  rcases PM.bind_err h with h | ⟨satB, i9, h9, h⟩
  · exact .inl (readF_err_isParse h)
  rcases PM.bind_err h with h | ⟨spdB, i10, h10, h⟩
  · exact .inl (readF_err_isParse h)
  rcases PM.bind_err h with h | ⟨hdopB, i11, h11, h⟩
  · exact .inl (readF_err_isParse h)
  rcases PM.bind_err h with h | ⟨evF, i12, h12, h⟩
  · exact .inl (readEventField_err h)
  rcases PM.bind_err h with h | ⟨ioEls, i13, h13, h⟩
  · exact parseIOSizes_err [1, 2, 4, 8] [] d i12 e h
  · exact (PM.pure_ne_err h).elim

theorem parseRecordsLoop_err {ext : Bool} {opts : ParserOptions} :
    ∀ (r rec : Nat) (acc : List RuptelaRecord) (d : List Nat) (i : Nat) (e : RErr),
      parseRecordsLoop ext opts rec r acc d i = .error e →
      e.isParse = true ∨
        (opts.SkipValidation = false ∧ 0 < opts.MaxIOElements ∧
          e.vField = some "io_elements") := by
  intro r
  induction r with
  | zero => intro rec acc d i e h; exact (PM.pure_ne_err h).elim
  | succ n ih =>
    intro rec acc d i e h
    rcases PM.bind_err h with h | ⟨rc, i1, h1, h2⟩
    · exact parseRecord_err h
    · exact ih (rec + 1) (acc ++ [rc]) d i1 e h2

theorem pmCheckLength_err {opts : ParserOptions} {L : Nat} {d : List Nat} {i : Nat} {e : RErr}
    (h : pmCheckLength opts L d i = .error e) :
    opts.SkipValidation = false ∧ opts.ValidateLength = true ∧
      e.vField = some "packet_length" := by
  rw [pmCheckLength] at h
  split at h
  · rename_i hc
    simp only [Except.error.injEq] at h
    exact ⟨hc.1, hc.2.1, by rw [← h]; rfl⟩
  · exact Except.noConfusion h

theorem pmGuardCRC_err {opts : ParserOptions} {L : Nat} {d : List Nat} {i : Nat} {e : RErr}
    (h : pmGuardCRC opts L d i = .error e) :
    e.isParse = true ∨
      (opts.SkipValidation = false ∧ opts.ValidateCRC = true ∧ e.vField = some "crc") := by
  rw [pmGuardCRC] at h
  split at h
  · simp only [Except.error.injEq] at h
    exact .inl (by rw [← h]; rfl)
  · simp only [] at h
    split at h
    · rename_i hc
      split at h
      · simp only [Except.error.injEq] at h
        exact .inl (by rw [← h]; rfl)
      · split at h
        · simp only [Except.error.injEq] at h
          exact .inr ⟨hc.1, hc.2, by rw [← h]; rfl⟩
        · exact Except.noConfusion h
    · exact Except.noConfusion h

theorem pmCheckMaxRecords_err {opts : ParserOptions} {n : Nat} {d : List Nat} {i : Nat}
    {e : RErr} (h : pmCheckMaxRecords opts n d i = .error e) :
    opts.SkipValidation = false ∧ 0 < opts.MaxRecords ∧ e.vField = some "num_records" := by
  rw [pmCheckMaxRecords] at h
  split at h
  · rename_i hc
    simp only [Except.error.injEq] at h
    exact ⟨hc.1, hc.2.1, by rw [← h]; rfl⟩
  · exact Except.noConfusion h

theorem parsePM_err {opts : ParserOptions} {d : List Nat} {i : Nat} {e : RErr}
    (h : parsePM opts d i = .error e) : ErrOk opts e := by
  rcases PM.bind_err h with h | ⟨lenB, i1, h1, h⟩
  · exact .inl (readF_err_isParse h)
  rcases PM.bind_err h with h | ⟨u1, i2, h2, h⟩
  · obtain ⟨ha, hb, hc⟩ := pmCheckLength_err h
    exact .inr ⟨ha, .inr (.inl ⟨hc, hb⟩)⟩
  rcases PM.bind_err h with h | ⟨u2, i3, h3, h⟩
  · rcases pmGuardCRC_err h with h | ⟨ha, hb, hc⟩
    · exact .inl h
    · exact .inr ⟨ha, .inr (.inr (.inl ⟨hc, hb⟩))⟩
  rcases PM.bind_err h with h | ⟨imeiB, i4, h4, h⟩
  · exact .inl (readF_err_isParse h)
  rcases PM.bind_err h with h | ⟨cmdB, i5, h5, h⟩
  · exact .inl (readF_err_isParse h)
  rcases PM.ite_err h with ⟨hc, h⟩ | ⟨hc, h⟩
  · rcases PM.bind_err h with h | ⟨flagB, i6, h6, h⟩
    · exact .inl (readF_err_isParse h)
    rcases PM.bind_err h with h | ⟨numB, i7, h7, h⟩
    · exact .inl (readF_err_isParse h)
    rcases PM.bind_err h with h | ⟨u3, i8, h8, h⟩
    · obtain ⟨ha, hb, hcf⟩ := pmCheckMaxRecords_err h
      exact .inr ⟨ha, .inr (.inr (.inr (.inl ⟨hcf, hb⟩)))⟩
    rcases PM.bind_err h with h | ⟨records, i9, h9, h⟩
    · rcases parseRecordsLoop_err (numB.getD 0 0) 0 [] d i8 e h with h | ⟨ha, hb, hcf⟩
      · exact .inl h
      · exact .inr ⟨ha, .inr (.inr (.inr (.inr ⟨hcf, hb⟩)))⟩
    · exact (PM.pure_ne_err h).elim
  · exact (PM.pure_ne_err h).elim

theorem parseRuptelaData_err {dat : List Nat} {opts : ParserOptions} {e : RErr}
    (h : parseRuptelaData dat opts = .error e) : ErrOk opts e := by
  rw [parseRuptelaData] at h
  cases hc : parseDataCore dat opts with
  | error e2 =>
    rw [hc] at h
    simp only [Except.map, Except.error.injEq] at h
    subst h
    rw [parseDataCore] at hc
    split at hc
    · simp only [Except.error.injEq] at hc
      exact .inl (by rw [← hc]; rfl)
    · split at hc
      · rename_i hcond
        simp only [Except.error.injEq] at hc
        refine .inr ⟨hcond.1, .inl ⟨by rw [← hc]; rfl, hcond.2.1⟩⟩
      · cases hp : parsePM opts dat 0 with
        | error e3 =>
          simp only [hp, Except.error.injEq] at hc
          subst hc
          exact parsePM_err hp
        | ok pr =>
          obtain ⟨pkt0, i9⟩ := pr
          simp only [hp] at hc
          exact Except.noConfusion hc
  | ok pr =>
    rw [hc] at h
    simp only [Except.map] at h
    exact Except.noConfusion h

theorem pmCheckLength_noop {opts : ParserOptions} {L : Nat} {d : List Nat} {i : Nat}
    (h : ¬(opts.SkipValidation = false ∧ opts.ValidateLength = true ∧
        (L : Int) ≠ (d.length : Int) - 4)) :
    pmCheckLength opts L d i = .ok ((), i) := by
  rw [pmCheckLength, if_neg h]

theorem pmCheckLength_fires {opts : ParserOptions} {L : Nat} {d : List Nat} {i : Nat}
    (hv : opts.SkipValidation = false) (hl : opts.ValidateLength = true)
    (hmis : (L : Int) ≠ (d.length : Int) - 4) :
    pmCheckLength opts L d i = .error (.validationError "packet_length" (toString L)
      (packetLengthMessage (d.length - 4) L)) := by
  rw [pmCheckLength, if_pos ⟨hv, hl, hmis⟩]

theorem pmGuardCRC_region_err {opts : ParserOptions} {L : Nat} {d : List Nat} {i : Nat}
    (h2 : ¬d.length < 2) (hv : opts.SkipValidation = false) (hc : opts.ValidateCRC = true)
    (hbig : (L : Int) + 2 > (d.length : Int)) :
    pmGuardCRC opts L d i = .error (.parseError (invalidLengthMessage L) 0 d) := by
  rw [pmGuardCRC, if_neg h2]
  simp only []
  rw [if_pos ⟨hv, hc⟩, if_pos hbig]

theorem pmGuardCRC_mismatch_err {opts : ParserOptions} {L : Nat} {d : List Nat} {i : Nat}
    (h2 : ¬d.length < 2) (hv : opts.SkipValidation = false) (hc : opts.ValidateCRC = true)
    (hfit : ¬((L : Int) + 2 > (d.length : Int)))
    (hne : bigEndian16 (d.drop (d.length - 2)) ≠ CRC16CCITT ((d.drop 2).take L)) :
    pmGuardCRC opts L d i = .error (.validationError "crc"
      (toHex4 (bigEndian16 (d.drop (d.length - 2))))
      (crcFailMessage (bigEndian16 (d.drop (d.length - 2)))
        (CRC16CCITT ((d.drop 2).take L)))) := by
  rw [pmGuardCRC, if_neg h2]
  simp only []
  rw [if_pos ⟨hv, hc⟩, if_neg hfit, if_pos hne]

theorem parsePM_err_after_length {opts : ParserOptions} {dat : List Nat} {e : RErr}
    (h13 : 13 ≤ dat.length)
    (h2 : pmCheckLength opts (declaredLen dat) dat 2 = .error e) :
    parsePM opts dat 0 = .error e :=
  PM.bind_err_right (readF_of_le "failed to read length" (by omega))
    (PM.bind_err_left h2)

theorem parsePM_err_after_crc {opts : ParserOptions} {dat : List Nat} {e : RErr}
    (h13 : 13 ≤ dat.length)
    (h2 : pmCheckLength opts (declaredLen dat) dat 2 = .ok ((), 2))
    (h3 : pmGuardCRC opts (declaredLen dat) dat 2 = .error e) :
    parsePM opts dat 0 = .error e :=
  PM.bind_err_right (readF_of_le "failed to read length" (by omega))
    (PM.bind_err_right h2 (PM.bind_err_left h3))

theorem parseRuptelaData_err_of_pm {dat : List Nat} {opts : ParserOptions} {e : RErr}
    (h13 : 13 ≤ dat.length)
    (hsize : ¬(opts.SkipValidation = false ∧ 0 < opts.MaxPacketSize ∧
        opts.MaxPacketSize < (dat.length : Int)))
    (h : parsePM opts dat 0 = .error e) :
    parseRuptelaData dat opts = .error e := by
  rw [parseRuptelaData, parseDataCore, if_neg (Nat.not_lt.mpr h13), if_neg hsize, h]
  rfl

/-- Claim C5, amended (the claim as stated is refuted by
`claim5_counterexample`): a packet whose declared length field differs from
total bytes − 4 is rejected with the policy-violation on field
`packet_length` when length validation is enabled (and the preceding guards
pass); when length validation is disabled or globally bypassed, no
`packet_length` rejection is ever raised — but the length field is not
fully ignored: with checksum validation enabled it still delimits the
checksummed region and can cause rejection there. -/
theorem claim5_length_validation :
    (∀ (dat : List Nat) (opts : ParserOptions),
        13 ≤ dat.length →
        ¬(0 < opts.MaxPacketSize ∧ opts.MaxPacketSize < (dat.length : Int)) →
        opts.SkipValidation = false → opts.ValidateLength = true →
        (declaredLen dat : Int) ≠ (dat.length : Int) - 4 →
        parseRuptelaData dat opts = .error (.validationError "packet_length"
          (toString (declaredLen dat))
          (packetLengthMessage (dat.length - 4) (declaredLen dat)))) ∧
    (∀ (dat : List Nat) (opts : ParserOptions) (e : RErr),
        (opts.SkipValidation = true ∨ opts.ValidateLength = false) →
        parseRuptelaData dat opts = .error e →
        e.vField ≠ some "packet_length") := by
  constructor
  · intro dat opts h13 hsize hv hl hmis
    exact parseRuptelaData_err_of_pm h13 (fun hx => hsize ⟨hx.2.1, hx.2.2⟩)
      (parsePM_err_after_length h13 (pmCheckLength_fires hv hl hmis))
  · intro dat opts e hdis h hfield
    rcases parseRuptelaData_err h with hp | ⟨hskip, hcase⟩
    · rw [vField_of_isParse hp] at hfield
      exact Option.noConfusion hfield
    · rcases hcase with ⟨hf, _⟩ | ⟨hf, hvl⟩ | ⟨hf, _⟩ | ⟨hf, _⟩ | ⟨hf, _⟩
      · rw [hf] at hfield
        simp only [Option.some.injEq] at hfield
        exact absurd hfield (by decide)
      · rcases hdis with hd | hd
        · rw [hskip] at hd; exact Bool.noConfusion hd
        · rw [hvl] at hd; exact Bool.noConfusion hd
      · rw [hf] at hfield
        simp only [Option.some.injEq] at hfield
        exact absurd hfield (by decide)
      · rw [hf] at hfield
        simp only [Option.some.injEq] at hfield
        exact absurd hfield (by decide)
      · rw [hf] at hfield
        simp only [Option.some.injEq] at hfield
        exact absurd hfield (by decide)

/-- Counterexample to C5 as stated: `dBadLen` is structurally decodable
(it decodes under the global bypass), length validation is disabled in
`crcOnlyOpts`, yet decoding is rejected because of the length field (used to
delimit the checksummed region); the same buffer with only its length field
corrected decodes successfully under the same configuration. -/
theorem claim5_counterexample :
    (∃ pkt, parseRuptelaData dBadLen skipOpts = .ok pkt) ∧
    parseRuptelaData dBadLen crcOnlyOpts =
      .error (.parseError (invalidLengthMessage 65535) 0 dBadLen) ∧
    (∃ pkt, parseRuptelaData dGoodLen crcOnlyOpts = .ok pkt) :=
  ⟨⟨_, rfl⟩, rfl, ⟨_, rfl⟩⟩

/-- Witness for C5 at a concrete input with length validation enabled. -/
theorem claim5_witness :
    parseRuptelaData dBadLen lenOnlyOpts =
      .error (.validationError "packet_length" (toString (declaredLen dBadLen))
        (packetLengthMessage (dBadLen.length - 4) (declaredLen dBadLen))) :=
  claim5_length_validation.1 dBadLen lenOnlyOpts (by decide) (by decide) rfl rfl (by decide)

/-- Claim C4, amended (the claim as stated is refuted by
`claim4_counterexample`): with checksum validation enabled and the earlier
guards passing, a checksummed region `[2, 2+declared_length)` exceeding the
buffer is rejected with a malformed-encoding parse error
"invalid packet length" (not a policy-violation as claimed); otherwise a
mismatch between the computed checksum and the trailing 16-bit checksum is
rejected with the policy-violation "CRC check failed" reporting both
values. -/
theorem claim4_crc_validation :
    ∀ (dat : List Nat) (opts : ParserOptions),
      13 ≤ dat.length →
      ¬(0 < opts.MaxPacketSize ∧ opts.MaxPacketSize < (dat.length : Int)) →
      opts.SkipValidation = false → opts.ValidateCRC = true →
      ¬(opts.ValidateLength = true ∧ (declaredLen dat : Int) ≠ (dat.length : Int) - 4) →
      (((declaredLen dat : Int) + 2 > (dat.length : Int) →
          parseRuptelaData dat opts =
            .error (.parseError (invalidLengthMessage (declaredLen dat)) 0 dat)) ∧
       (¬((declaredLen dat : Int) + 2 > (dat.length : Int)) →
          packetCRC dat ≠ CRC16CCITT ((dat.drop 2).take (declaredLen dat)) →
          parseRuptelaData dat opts =
            .error (.validationError "crc" (toHex4 (packetCRC dat))
              (crcFailMessage (packetCRC dat)
                (CRC16CCITT ((dat.drop 2).take (declaredLen dat))))))) := by
  intro dat opts h13 hsize hv hc hnol
  have hsize2 : ¬(opts.SkipValidation = false ∧ 0 < opts.MaxPacketSize ∧
      opts.MaxPacketSize < (dat.length : Int)) := fun hx => hsize ⟨hx.2.1, hx.2.2⟩
  have h2 : pmCheckLength opts (declaredLen dat) dat 2 = .ok ((), 2) :=
    pmCheckLength_noop (fun hx => hnol ⟨hx.2.1, hx.2.2⟩)
  have hlen2 : ¬dat.length < 2 := by omega
  constructor
  · intro hbig
    exact parseRuptelaData_err_of_pm h13 hsize2
      (parsePM_err_after_crc h13 h2 (pmGuardCRC_region_err hlen2 hv hc hbig))
  · intro hfit hne
    exact parseRuptelaData_err_of_pm h13 hsize2
      (parsePM_err_after_crc h13 h2 (pmGuardCRC_mismatch_err hlen2 hv hc hfit hne))

/-- Counterexample to C4 as stated: the out-of-bounds checksummed region of
`dBadLen` is rejected with a malformed-encoding parse error, not with a
policy-violation (validation) error. -/
theorem claim4_counterexample :
    parseRuptelaData dBadLen crcOnlyOpts =
      .error (.parseError (invalidLengthMessage 65535) 0 dBadLen) ∧
    (RErr.parseError (invalidLengthMessage 65535) 0 dBadLen).isParse = true ∧
    (RErr.parseError (invalidLengthMessage 65535) 0 dBadLen).vField = none :=
  ⟨rfl, rfl, rfl⟩

/-- Witness for C4 at a concrete input (region-exceeds branch). -/
theorem claim4_witness :
    parseRuptelaData dBadLen crcOnlyOpts =
      .error (.parseError (invalidLengthMessage (declaredLen dBadLen)) 0 dBadLen) :=
  (claim4_crc_validation dBadLen crcOnlyOpts (by decide) (by decide) rfl rfl
    (by decide)).1 (by decide)

/-- Claim C10: a zero or negative maximum record count disables the
record-count limit (no `num_records` policy-violation is ever raised), and a
zero or negative maximum IO-element count disables the per-record element
limit (no `io_elements` policy-violation is ever raised). -/
theorem claim10_zero_disables_limits :
    (∀ (dat : List Nat) (opts : ParserOptions) (e : RErr),
        opts.MaxRecords ≤ 0 → parseRuptelaData dat opts = .error e →
        e.vField ≠ some "num_records") ∧
    (∀ (dat : List Nat) (opts : ParserOptions) (e : RErr),
        opts.MaxIOElements ≤ 0 → parseRuptelaData dat opts = .error e →
        e.vField ≠ some "io_elements") := by
  constructor
  · intro dat opts e hle h hfield
    rcases parseRuptelaData_err h with hp | ⟨hskip, hcase⟩
    · rw [vField_of_isParse hp] at hfield
      exact Option.noConfusion hfield
    · rcases hcase with ⟨hf, _⟩ | ⟨hf, _⟩ | ⟨hf, _⟩ | ⟨hf, hlim⟩ | ⟨hf, _⟩
      · rw [hf] at hfield
        simp only [Option.some.injEq] at hfield
        exact absurd hfield (by decide)
      · rw [hf] at hfield
        simp only [Option.some.injEq] at hfield
        exact absurd hfield (by decide)
      · rw [hf] at hfield
        simp only [Option.some.injEq] at hfield
        exact absurd hfield (by decide)
      · omega
      · rw [hf] at hfield
        simp only [Option.some.injEq] at hfield
        exact absurd hfield (by decide)
  · intro dat opts e hle h hfield
    rcases parseRuptelaData_err h with hp | ⟨hskip, hcase⟩
    · rw [vField_of_isParse hp] at hfield
      exact Option.noConfusion hfield
    · rcases hcase with ⟨hf, _⟩ | ⟨hf, _⟩ | ⟨hf, _⟩ | ⟨hf, _⟩ | ⟨hf, hlim⟩
      · rw [hf] at hfield
        simp only [Option.some.injEq] at hfield
        exact absurd hfield (by decide)
      · rw [hf] at hfield
        simp only [Option.some.injEq] at hfield
        exact absurd hfield (by decide)
      · rw [hf] at hfield
        simp only [Option.some.injEq] at hfield
        exact absurd hfield (by decide)
      · rw [hf] at hfield
        simp only [Option.some.injEq] at hfield
        exact absurd hfield (by decide)
      · omega

/-- Witness for C10: `dManyRecords` declares 255 records; with both limits
set to zero no limit violation is raised (the decode fails later with a
cursor parse error instead). -/
theorem claim10_witness :
    zeroLimitOpts.MaxRecords ≤ 0 ∧ zeroLimitOpts.MaxIOElements ≤ 0 ∧
    parseRuptelaData dManyRecords zeroLimitOpts = .error eManyRecords ∧
    eManyRecords.vField ≠ some "num_records" ∧ eManyRecords.vField ≠ some "io_elements" :=
  ⟨by decide, by decide, rfl,
   claim10_zero_disables_limits.1 dManyRecords zeroLimitOpts eManyRecords (by decide) rfl,
   claim10_zero_disables_limits.2 dManyRecords zeroLimitOpts eManyRecords (by decide) rfl⟩

/-! ## Truncation behavior (C1) -/

theorem PM.ite_prefixOk_pos {α : Type} {c : Prop} [Decidable c] {A B : PM α}
    {d : List Nat} {i : Nat} {a : α} {j : Nat} (hc : c) (hA : PrefixOk A d i a j) :
    PrefixOk (if c then A else B) d i a j := by
  rw [if_pos hc]; exact hA

theorem PM.ite_prefixOk_neg {α : Type} {c : Prop} [Decidable c] {A B : PM α}
    {d : List Nat} {i : Nat} {a : α} {j : Nat} (hc : ¬c) (hB : PrefixOk B d i a j) :
    PrefixOk (if c then A else B) d i a j := by
  rw [if_neg hc]; exact hB

theorem pmGuardCRC_noop {opts : ParserOptions} {L : Nat} {d : List Nat} {i : Nat}
    (hlen2 : ¬d.length < 2) (h : ¬(opts.SkipValidation = false ∧ opts.ValidateCRC = true)) :
    pmGuardCRC opts L d i = .ok ((), i) := by
  rw [pmGuardCRC, if_neg hlen2]
  simp only []
  rw [if_neg h]

theorem pmCheckLength_prefixOk {opts : ParserOptions} {L : Nat} {d : List Nat} {i : Nat}
    (hi : i ≤ d.length)
    (hcfg : opts.SkipValidation = true ∨ opts.ValidateLength = false) :
    PrefixOk (pmCheckLength opts L) d i () i := by
  have hcond : ∀ d' : List Nat, ¬(opts.SkipValidation = false ∧ opts.ValidateLength = true ∧
      (L : Int) ≠ (d'.length : Int) - 4) := by
    intro d' hx
    rcases hcfg with hs | hs
    · rw [hs] at hx; exact Bool.noConfusion hx.1
    · rw [hs] at hx; exact Bool.noConfusion hx.2.1
  refine ⟨Nat.le_refl i, hi, ?_, ?_⟩
  · intro m _
    exact pmCheckLength_noop (hcond _)
  · intro m h1 h2
    exact absurd h1 (Nat.not_le.mpr h2)

theorem pmGuardCRC_prefixOk {opts : ParserOptions} {L : Nat} {d : List Nat} {i : Nat}
    (hi : i ≤ d.length) (h2i : 2 ≤ i)
    (hcfg : opts.SkipValidation = true ∨ opts.ValidateCRC = false) :
    PrefixOk (pmGuardCRC opts L) d i () i := by
  have hcond : ¬(opts.SkipValidation = false ∧ opts.ValidateCRC = true) := by
    intro hx
    rcases hcfg with hs | hs
    · rw [hs] at hx; exact Bool.noConfusion hx.1
    · rw [hs] at hx; exact Bool.noConfusion hx.2
  refine ⟨Nat.le_refl i, hi, ?_, ?_⟩
  · intro m hm
    exact pmGuardCRC_noop (by rw [List.length_take]; omega) hcond
  · intro m h1 h2
    exact absurd h1 (Nat.not_le.mpr h2)

theorem pmCheckMaxRecords_prefixOk {opts : ParserOptions} {n : Nat} {d : List Nat}
    {i : Nat} {u : Unit} {j : Nat} (hi : i ≤ d.length)
    (h : pmCheckMaxRecords opts n d i = .ok (u, j)) :
    PrefixOk (pmCheckMaxRecords opts n) d i u j := by
  rw [pmCheckMaxRecords] at h
  split at h
  · exact Except.noConfusion h
  · rename_i hc
    simp only [Except.ok.injEq, Prod.mk.injEq] at h
    obtain ⟨hu, hj⟩ := h
    subst hj
    cases u
    refine ⟨Nat.le_refl i, hi, ?_, ?_⟩
    · intro m _
      rw [pmCheckMaxRecords, if_neg hc]
    · intro m h1 h2
      exact absurd h1 (Nat.not_le.mpr h2)

theorem readRext_prefixOk {ext : Bool} {rec : Nat} {d : List Nat} {i : Nat}
    {o : Option Nat} {j : Nat} (hi : i ≤ d.length)
    (h : readRext ext rec d i = .ok (o, j)) :
    PrefixOk (readRext ext rec) d i o j := by
  cases ext
  · obtain ⟨ho, hj⟩ := PM.pure_ok h
    subst ho; subst hj
    exact pure_prefixOk hi
  · obtain ⟨rB, i1, h1, h2⟩ := PM.bind_ok h
    obtain ⟨ho, hj⟩ := PM.pure_ok h2
    subst ho; subst hj
    obtain ⟨hle, _, hi1⟩ := readF_ok h1
    exact PrefixOk.bindP (readF_prefixOk h1) (pure_prefixOk (by omega))

theorem readEventField_prefixOk {ext : Bool} {rec : Nat} {d : List Nat} {i : Nat}
    {v j : Nat} (h : readEventField ext rec d i = .ok (v, j)) :
    PrefixOk (readEventField ext rec) d i v j := by
  cases ext <;>
  · obtain ⟨eB, i1, h1, h2⟩ := PM.bind_ok h
    obtain ⟨ho, hj⟩ := PM.pure_ok h2
    subst ho; subst hj
    obtain ⟨hle, _, hi1⟩ := readF_ok h1
    exact PrefixOk.bindP (readF_prefixOk h1) (pure_prefixOk (by omega))

theorem readIOID_prefixOk {ext : Bool} {rec size jj : Nat} {d : List Nat} {i : Nat}
    {v j : Nat} (h : readIOID ext rec size jj d i = .ok (v, j)) :
    PrefixOk (readIOID ext rec size jj) d i v j := by
  cases ext <;>
  · obtain ⟨b, i1, h1, h2⟩ := PM.bind_ok h
    obtain ⟨ho, hj⟩ := PM.pure_ok h2
    subst ho; subst hj
    obtain ⟨hle, _, hi1⟩ := readF_ok h1
    exact PrefixOk.bindP (readF_prefixOk h1) (pure_prefixOk (by omega))

theorem readIOVal_prefixOk {rec size jj : Nat} :
    ∀ (r b : Nat) (acc : List Nat) (d : List Nat) (i : Nat) (res : List Nat) (j : Nat),
      i ≤ d.length →
      readIOVal rec size jj b r acc d i = .ok (res, j) →
      PrefixOk (readIOVal rec size jj b r acc) d i res j := by
  intro r
  induction r with
  | zero =>
    intro b acc d i res j hi h
    obtain ⟨ho, hj⟩ := PM.pure_ok h
    subst ho; subst hj
    exact pure_prefixOk hi
  | succ n ih =>
    intro b acc d i res j hi h
    obtain ⟨vB, i1, h1, h2⟩ := PM.bind_ok h
    obtain ⟨hle, _, hi1⟩ := readF_ok h1
    exact PrefixOk.bindP (readF_prefixOk h1)
      (ih (b + 1) (acc ++ [vB.getD 0 0]) d i1 res j (by omega) h2)

theorem parseIOOne_prefixOk {ext : Bool} {rec size jj : Nat} {d : List Nat} {i : Nat}
    {el : IOElement} {j : Nat} (h : parseIOOne ext rec size jj d i = .ok (el, j)) :
    PrefixOk (parseIOOne ext rec size jj) d i el j := by
  obtain ⟨ioID, i1, h1, h⟩ := PM.bind_ok h
  obtain ⟨vb, i2, h2, h⟩ := PM.bind_ok h
  obtain ⟨ho, hj⟩ := PM.pure_ok h
  subst ho; subst hj
  have hP1 := readIOID_prefixOk h1
  have hP2 := readIOVal_prefixOk size 0 [] d i1 vb j hP1.le_len h2
  exact PrefixOk.bindP hP1 (PrefixOk.bindP hP2 (pure_prefixOk hP2.le_len))

theorem parseIOGroup_prefixOk {ext : Bool} {rec size : Nat} :
    ∀ (r jj : Nat) (acc : List IOElement) (d : List Nat) (i : Nat)
      (res : List IOElement) (j : Nat),
      i ≤ d.length →
      parseIOGroup ext rec size jj r acc d i = .ok (res, j) →
      PrefixOk (parseIOGroup ext rec size jj r acc) d i res j := by
  intro r
  induction r with
  | zero =>
    intro jj acc d i res j hi h
    obtain ⟨ho, hj⟩ := PM.pure_ok h
    subst ho; subst hj
    exact pure_prefixOk hi
  | succ n ih =>
    intro jj acc d i res j hi h
    obtain ⟨el, i1, h1, h2⟩ := PM.bind_ok h
    have hP1 := parseIOOne_prefixOk h1
    exact PrefixOk.bindP hP1 (ih (jj + 1) (acc ++ [el]) d i1 res j hP1.le_len h2)

theorem parseIOSizes_prefixOk {ext : Bool} {opts : ParserOptions} {rec : Nat} :
    ∀ (sizes : List Nat) (acc : List IOElement) (d : List Nat) (i : Nat)
      (res : List IOElement) (j : Nat),
      i ≤ d.length →
      parseIOSizes ext opts rec sizes acc d i = .ok (res, j) →
      PrefixOk (parseIOSizes ext opts rec sizes acc) d i res j := by
  intro sizes
  induction sizes with
  | nil =>
    intro acc d i res j hi h
    obtain ⟨ho, hj⟩ := PM.pure_ok h
    subst ho; subst hj
    exact pure_prefixOk hi
  | cons s rest ih =>
    intro acc d i res j hi h
    obtain ⟨cntB, i1, h1, h2⟩ := PM.bind_ok h
    rcases PM.ite_ok h2 with ⟨_, h3⟩ | ⟨hc, h3⟩
    · exact Except.noConfusion h3
    · obtain ⟨acc2, i2, h4, h5⟩ := PM.bind_ok h3
      have hP1 := readF_prefixOk h1
      have hP4 := parseIOGroup_prefixOk (cntB.getD 0 0) 0 acc d i1 acc2 i2 hP1.le_len h4
      have hP5 := ih acc2 d i2 res j hP4.le_len h5
      exact PrefixOk.bindP hP1
        (PM.ite_prefixOk_neg hc (PrefixOk.bindP hP4 hP5))

theorem parseRecord_prefixOk {ext : Bool} {opts : ParserOptions} {rec : Nat}
    {d : List Nat} {i : Nat} {r : RuptelaRecord} {j : Nat}
    (h : parseRecord ext opts rec d i = .ok (r, j)) :
    PrefixOk (parseRecord ext opts rec) d i r j := by
  obtain ⟨tsB, i1, h1, h⟩ := PM.bind_ok h
  obtain ⟨tsExtB, i2, h2, h⟩ := PM.bind_ok h
  obtain ⟨rext, i3, h3, h⟩ := PM.bind_ok h
  obtain ⟨priB, i4, h4, h⟩ := PM.bind_ok h
  obtain ⟨lonB, i5, h5, h⟩ := PM.bind_ok h
  obtain ⟨latB, i6, h6, h⟩ := PM.bind_ok h
  obtain ⟨altB, i7, h7, h⟩ := PM.bind_ok h
  obtain ⟨angB, i8, h8, h⟩ := PM.bind_ok h
  obtain ⟨satB, i9, h9, h⟩ := PM.bind_ok h
  obtain ⟨spdB, i10, h10, h⟩ := PM.bind_ok h
  obtain ⟨hdopB, i11, h11, h⟩ := PM.bind_ok h
  obtain ⟨evF, i12, h12, h⟩ := PM.bind_ok h
  obtain ⟨ioEls, i13, h13, h⟩ := PM.bind_ok h
  obtain ⟨hr, hj⟩ := PM.pure_ok h
  subst hr; subst hj
  have hP1 := readF_prefixOk h1
  have hP2 := readF_prefixOk h2
  have hP3 := readRext_prefixOk hP2.le_len h3
  have hP4 := readF_prefixOk h4
  have hP5 := readF_prefixOk h5
  have hP6 := readF_prefixOk h6
  have hP7 := readF_prefixOk h7
  have hP8 := readF_prefixOk h8
  have hP9 := readF_prefixOk h9
  have hP10 := readF_prefixOk h10
  have hP11 := readF_prefixOk h11
  have hP12 := readEventField_prefixOk h12
  have hP13 := parseIOSizes_prefixOk [1, 2, 4, 8] [] d i12 ioEls j hP12.le_len h13
  exact PrefixOk.bindP hP1 (PrefixOk.bindP hP2 (PrefixOk.bindP hP3 (PrefixOk.bindP hP4
    (PrefixOk.bindP hP5 (PrefixOk.bindP hP6 (PrefixOk.bindP hP7 (PrefixOk.bindP hP8
      (PrefixOk.bindP hP9 (PrefixOk.bindP hP10 (PrefixOk.bindP hP11 (PrefixOk.bindP hP12
        (PrefixOk.bindP hP13 (pure_prefixOk hP13.le_len)))))))))))))

theorem parseRecordsLoop_prefixOk {ext : Bool} {opts : ParserOptions} :
    ∀ (r rec : Nat) (acc : List RuptelaRecord) (d : List Nat) (i : Nat)
      (res : List RuptelaRecord) (j : Nat),
      i ≤ d.length →
      parseRecordsLoop ext opts rec r acc d i = .ok (res, j) →
      PrefixOk (parseRecordsLoop ext opts rec r acc) d i res j := by
  intro r
  induction r with
  | zero =>
    intro rec acc d i res j hi h
    obtain ⟨ho, hj⟩ := PM.pure_ok h
    subst ho; subst hj
    exact pure_prefixOk hi
  | succ n ih =>
    intro rec acc d i res j hi h
    obtain ⟨rc, i1, h1, h2⟩ := PM.bind_ok h
    have hP1 := parseRecord_prefixOk h1
    exact PrefixOk.bindP hP1 (ih (rec + 1) (acc ++ [rc]) d i1 res j hP1.le_len h2)

/-- Claim C1, amended (the claim as stated is refuted by
`claim1_counterexample`): for every packet that decodes successfully under a
configuration with checksum and length validation inactive
(SkipValidation=true, or ValidateCRC=false and ValidateLength=false),
truncating the buffer to any length shorter than the final cursor position
always yields a malformed-encoding parse error — this covers truncation by
one byte at every field boundary inside the cursor-consumed region.
Truncation at boundaries in the trailing region the cursor never reads (the
positional CRC field and any slack) can instead decode successfully with a
silently shifted CRC value, so the original claim fails there. -/
theorem claim1_truncation :
    ∀ (dat : List Nat) (opts : ParserOptions) (pkt : RuptelaPacket) (C m : Nat),
      (opts.SkipValidation = true ∨
        (opts.ValidateCRC = false ∧ opts.ValidateLength = false)) →
      parseDataCore dat opts = .ok (pkt, C) →
      m < C →
      ∃ e, parseRuptelaData (dat.take m) opts = .error e ∧ e.isParse = true := by
  intro dat opts pkt C m hcfg hok hm
  obtain ⟨pkt0, hpm, _hpkt, h13, hsize⟩ := parseDataCore_ok hok
  have hcfgL : opts.SkipValidation = true ∨ opts.ValidateLength = false := by
    rcases hcfg with hs | hs
    · exact .inl hs
    · exact .inr hs.2
  have hcfgC : opts.SkipValidation = true ∨ opts.ValidateCRC = false := by
    rcases hcfg with hs | hs
    · exact .inl hs
    · exact .inr hs.1
  obtain ⟨lenB, i1, h1, hrest⟩ := PM.bind_ok hpm
  obtain ⟨u1, i2, h2, hrest⟩ := PM.bind_ok hrest
  obtain ⟨u2, i3, h3, hrest⟩ := PM.bind_ok hrest
  obtain ⟨imeiB, i4, h4, hrest⟩ := PM.bind_ok hrest
  obtain ⟨cmdB, i5, h5, hrest⟩ := PM.bind_ok hrest
  obtain ⟨hle1, hb1, hi1⟩ := readF_ok h1
  have hi2 := pmCheckLength_ok h2
  have hi3 := pmGuardCRC_ok h3
  obtain ⟨hle4, hb4, hi4⟩ := readF_ok h4
  obtain ⟨hle5, hb5, hi5⟩ := readF_ok h5
  subst hi2; subst hi3; subst hi1; subst hi4; subst hi5
  by_cases hm13 : m < 13
  · refine ⟨.parseError "packet too short" 0 (dat.take m), ?_, rfl⟩
    have hlt : (dat.take m).length < 13 := by rw [List.length_take]; omega
    rw [parseRuptelaData, parseDataCore, if_pos hlt]
    rfl
  · rcases PM.ite_ok hrest with ⟨hc, hbr⟩ | ⟨hc, hbr⟩
    · obtain ⟨flagB, i6, h6, hbr⟩ := PM.bind_ok hbr
      obtain ⟨numB, i7, h7, hbr⟩ := PM.bind_ok hbr
      obtain ⟨u3, i8, h8, hbr⟩ := PM.bind_ok hbr
      obtain ⟨records, i9, h9, hbr⟩ := PM.bind_ok hbr
      obtain ⟨hpkt0, hC⟩ := PM.pure_ok hbr
      obtain ⟨hle6, hb6, hi6⟩ := readF_ok h6
      obtain ⟨hle7, hb7, hi7⟩ := readF_ok h7
      have hi8 := pmCheckMaxRecords_ok h8
      subst hi6; subst hi7; subst hi8; subst hC; subst hpkt0
      have hP1 := readF_prefixOk h1
      have hP2 := pmCheckLength_prefixOk (L := bigEndian16 lenB) (d := dat)
        (i := 0 + 2) (by omega) hcfgL
      have hP3 := pmGuardCRC_prefixOk (L := bigEndian16 lenB) (d := dat)
        (i := 0 + 2) (by omega) (by omega) hcfgC
      have hP4 := readF_prefixOk h4
      have hP5 := readF_prefixOk h5
      have hP6 := readF_prefixOk h6
      have hP7 := readF_prefixOk h7
      have hP8 := pmCheckMaxRecords_prefixOk (by omega) h8
      have hP9 := parseRecordsLoop_prefixOk (numB.getD 0 0) 0 [] dat _ records C
        (by omega) h9
      have hmlen : m ≤ dat.length := by
        have := hP9.le_len
        omega
      have h13t : 13 ≤ (dat.take m).length := by rw [List.length_take]; omega
      have hsizet : ¬(opts.SkipValidation = false ∧ 0 < opts.MaxPacketSize ∧
          opts.MaxPacketSize < ((dat.take m).length : Int)) := by
        intro hx
        apply hsize
        refine ⟨hx.1, hx.2.1, ?_⟩
        have hcc := hx.2.2
        rw [List.length_take, Nat.min_eq_left hmlen] at hcc
        have hle : (m : Int) ≤ (dat.length : Int) := Int.ofNat_le.mpr hmlen
        omega
      have hA : PrefixOk (parsePM opts) dat 0 _ C :=
        PrefixOk.bindP hP1 (PrefixOk.bindP hP2 (PrefixOk.bindP hP3 (PrefixOk.bindP hP4
          (PrefixOk.bindP hP5 (PM.ite_prefixOk_pos hc (PrefixOk.bindP hP6
            (PrefixOk.bindP hP7 (PrefixOk.bindP hP8 (PrefixOk.bindP hP9
              (pure_prefixOk hP9.le_len))))))))))
      obtain ⟨e, herr, hparse⟩ := hA.err_take m (Nat.zero_le m) hm
      exact ⟨e, parseRuptelaData_err_of_pm h13t hsizet herr, hparse⟩
    · obtain ⟨hpkt0, hC⟩ := PM.pure_ok hbr
      omega

/-- Counterexample to C1 as stated: `dSpare` decodes successfully with all
validation disabled; truncating it by one byte at its final field boundary
(the end of the trailing CRC field) still decodes successfully — with a
silently different CRC value taken from shifted positions — instead of
failing with a malformed-encoding error. -/
theorem claim1_counterexample :
    parseRuptelaData dSpare skipOpts = .ok pktSpare ∧
    dSpare.take (dSpare.length - 1) = [0, 10, 1, 2, 3, 4, 5, 6, 7, 8, 5, 171, 205] ∧
    parseRuptelaData (dSpare.take (dSpare.length - 1)) skipOpts =
      .ok { pktSpare with CRC := 43981 } ∧
    (43981 : Nat) ≠ pktSpare.CRC :=
  ⟨rfl, rfl, rfl, by decide⟩

/-- Witness for C1: truncating `dCmd68` (cursor consumption 45) to 30 bytes
fails with a parse error. -/
theorem claim1_witness :
    ∃ e, parseRuptelaData (dCmd68.take 30) skipOpts = .error e ∧ e.isParse = true :=
  claim1_truncation dCmd68 skipOpts pktCmd68 45 30 (Or.inl rfl) rfl (by decide)
